import Mathlib

/-!
# Verification of the PediAssist LLM orchestration layer

Shallow embedding, in Lean 4, of the core of the `pediassist` repository:

* `src/pediassist/llm/safety.py`       — `SafetyValidator`
* `src/pediassist/llm/cost_tracker.py` — `CostTracker`
* `src/pediassist/llm/cache.py`        — `QueryCache` / `SmartQueryCache`
* `src/pediassist/llm/client.py`       — `LLMClient` orchestration
* `src/pediassist/llm/prompts.py`      — `PromptEngine`

Conventions of the embedding:

* Python strings are Lean `String`s; all string handling (`in`, `find`,
  `split`, `lower`) is modelled character by character on `List Char`.
  All inputs of interest are ASCII, where Python and Lean lower-casing
  agree.
* Python floats (costs, budgets, temperatures, similarity scores) are
  modelled as rationals `ℚ`; the claims under study are about
  comparisons and sums, not about rounding of binary floating point.
* Python `datetime` values are modelled as natural-number timestamps;
  the rolling windows "calendar month to date" and "UTC midnight to
  now" are modelled by explicit `monthStart`/`dayStart` parameters.
* Exceptions are modelled with `Except`; the external LLM backend is
  modelled as a function from call index to an abstract outcome.
-/

namespace PediAssist

/-! ## Python string primitives -/

/-- Substring test on character lists: Python `needle in hay`. -/
def containsSubL : List Char → List Char → Bool
  | hay, needle =>
    if needle.isPrefixOf hay then true
    else
      match hay with
      | [] => false
      | _ :: t => containsSubL t needle

/-- Python `needle in hay` for strings. -/
def strContains (hay needle : String) : Bool :=
  containsSubL hay.toList needle.toList

/-- First index at which `needle` occurs, on character lists. -/
def findSubL : List Char → List Char → Option Nat
  | hay, needle =>
    if needle.isPrefixOf hay then some 0
    else
      match hay with
      | [] => none
      | _ :: t => (findSubL t needle).map (· + 1)

/-- Python `hay.find(needle)`: index of first occurrence, `none` for `-1`. -/
def strFind (hay needle : String) : Option Nat :=
  findSubL hay.toList needle.toList

/-- Distance `abs(i - j)` between two Python `find` results (both hits). -/
def natDist (i j : Nat) : Nat := max i j - min i j

/-- Python `str.lower()` (ASCII, which covers all strings in the sources). -/
def lowerStr (s : String) : String :=
  ⟨s.toList.map Char.toLower⟩

/-- Whitespace recognised by Python `str.split()` with no argument. -/
def pyIsSpace (c : Char) : Bool :=
  c = ' ' || c = '\t' || c = '\n' || c = '\x0d' || c = '\x0b' || c = '\x0c'

/-- Helper for `splitWs`: accumulates the current word (reversed). -/
def splitWsAux : List Char → List Char → List String
  | [], acc => if acc.isEmpty then [] else [⟨acc.reverse⟩]
  | c :: t, acc =>
    if pyIsSpace c then
      if acc.isEmpty then splitWsAux t [] else ⟨acc.reverse⟩ :: splitWsAux t []
    else splitWsAux t (c :: acc)

/-- Python `str.split()`: split on whitespace runs, dropping empty parts. -/
def splitWs (s : String) : List String :=
  splitWsAux s.toList []

/-- Python `str.join` over a list of strings. -/
def joinWith (sep : String) : List String → String
  | [] => ""
  | [x] => x
  | x :: t => x ++ sep ++ joinWith sep t

/-- Python `str.split(sep)` for a one-character separator (used for `.split('.')`). -/
def splitOnChar (s : String) (sep : Char) : List String :=
  (s.toList.splitOn sep).map fun l => ⟨l⟩

/-- Python `str.strip()` (whitespace strip on both ends). -/
def stripStr (s : String) : String :=
  ⟨(s.toList.dropWhile pyIsSpace).reverse.dropWhile pyIsSpace |>.reverse⟩

/-- Characters counted as `\w` by `re` (ASCII range). -/
def isWordChar (c : Char) : Bool :=
  c.isAlphanum || c = '_'

/-! ## Severity lattice (`safety.py`, `_update_severity`) -/

/-- The four severity tiers of a `SafetyCheck`. -/
inductive Severity
  | low
  | medium
  | high
  | critical
deriving DecidableEq, Repr

/-- `severity_order` from `_update_severity`. -/
def Severity.toNat : Severity → Nat
  | .low => 0
  | .medium => 1
  | .high => 2
  | .critical => 3

/-- `SafetyValidator._update_severity`: monotone merge, never decreasing. -/
def updateSeverity (current new : Severity) : Severity :=
  if current.toNat < new.toNat then new else current

end PediAssist

-- sanity checks for the string primitives
example : PediAssist.strContains "hello world" "lo wo" = true := by decide
example : PediAssist.strContains "hello" "" = true := by decide
example : PediAssist.strFind "abcabc" "bc" = some 1 := by decide
example : PediAssist.strFind "abc" "zz" = none := by decide
example : PediAssist.splitWs "  a  bb\n c " = ["a", "bb", "c"] := by decide
example : PediAssist.lowerStr "AbC" = "abc" := by decide
example : PediAssist.updateSeverity .high .medium = .high := by decide

namespace PediAssist

/-! ## A small matcher engine for the `re` patterns of the sources

The Python sources use a fixed set of regular expressions.  Each pattern is
built from literals, `.?` (optional any-character), alternation and a
`.*(?:tail)` suffix.  We model a matcher as a function from the remaining
character list to the list of possible consumption lengths, ordered by the
backtracking preference of `re` (greedy first, alternatives in source
order); the first overall success is the match `re` produces.  All the
source patterns are compiled with `re.IGNORECASE` and without `re.DOTALL`
(so `.` does not match a newline) unless noted otherwise. -/

/-- A matcher: consumption lengths in `re` backtracking preference order. -/
abbrev Matcher := List Char → List Nat

/-- Case-insensitive literal. -/
def litCI (lit : String) : Matcher := fun cs =>
  if (lit.toList.map Char.toLower).isPrefixOf (cs.map Char.toLower) then
    [lit.length]
  else []

/-- `.?` — optionally one character, greedy, not matching a newline. -/
def optAnyNoNL : Matcher := fun cs =>
  match cs with
  | [] => [0]
  | c :: _ => if c = '\n' then [0] else [1, 0]

/-- `.*` — any run of non-newline characters, greedy first. -/
def starNoNL : Matcher := fun cs =>
  let k := (cs.takeWhile (· ≠ '\n')).length
  (List.range (k + 1)).reverse

/-- Sequential composition of matchers, preserving preference order. -/
def seqM (a b : Matcher) : Matcher := fun cs =>
  (a cs).flatMap fun n => (b (cs.drop n)).map (n + ·)

/-- Empty matcher (matches nothing, consuming zero characters). -/
def epsM : Matcher := fun _ => [0]

/-- One element of a pattern: a literal or a `.?`. -/
inductive PatElem
  | lit (s : String)
  | optAny

/-- Matcher of one pattern element. -/
def PatElem.toMatcher : PatElem → Matcher
  | .lit s => litCI s
  | .optAny => optAnyNoNL

/-- Matcher of a sequence of pattern elements. -/
def seqElems (es : List PatElem) : Matcher :=
  es.foldr (fun e acc => seqM e.toMatcher acc) epsM

/-- Alternation over element sequences, in source order. -/
def altElems (alts : List (List PatElem)) : Matcher := fun cs =>
  alts.flatMap fun es => seqElems es cs

/-- Result of matching a `(group)` optionally followed by `.*(?:tail)`:
the group consumption and the total consumption of the first success. -/
def matchGroupTail (group tail : Matcher) (cs : List Char) : Option (Nat × Nat) :=
  ((group cs).flatMap fun g => (tail (cs.drop g)).map fun t => (g, g + t)).head?

/-- `\b` before a word character: the previous character (if any) is not a
word character.  All source patterns start with word characters. -/
def boundaryOk : Option Char → Bool
  | none => true
  | some c => !isWordChar c

/-- `re.findall` for a pattern `\b(group)(.*(?:tail))?`, returning the
captured group texts of the non-overlapping leftmost matches. -/
def findallGT (group tail : Matcher) : Nat → Option Char → List Char → List String
  | 0, _, _ => []
  | _ + 1, _, [] => []
  | fuel + 1, prev, c :: t =>
    let cs := c :: t
    match if boundaryOk prev then matchGroupTail group tail cs else none with
    | some (g, total) =>
      if total = 0 then
        -- a zero-width match cannot arise from these patterns; advance one
        (⟨cs.take g⟩ : String) :: findallGT group tail fuel (some c) t
      else
        (⟨cs.take g⟩ : String) ::
          findallGT group tail fuel ((cs.take total).getLast? ) (cs.drop total)
    | none => findallGT group tail fuel (some c) t

/-- `re.findall` entry point for `\b(group)` patterns (optional tail). -/
def reFindall (group tail : Matcher) (s : String) : List String :=
  findallGT group tail (s.length + 1) none s.toList

/-- `re.search` (boolean) for a pattern `\b(group).*(?:tail)`. -/
def reSearchB (group tail : Matcher) (s : String) : Bool :=
  !(reFindall group tail s).isEmpty

end PediAssist

example :
    PediAssist.reFindall
      (PediAssist.altElems [[.lit "self", .optAny, .lit "harm"], [.lit "overdose"]])
      PediAssist.epsM "Self-harm risk; overdose risk" = ["Self-harm", "overdose"] := by
  decide

example :
    PediAssist.reFindall (PediAssist.altElems [[.lit "treat"]])
      (PediAssist.seqM PediAssist.starNoNL
        (PediAssist.altElems [[.lit "without"], [.lit "no", .optAny, .lit "context"]]))
      "treat this without care" = ["treat"] := by decide

example :
    PediAssist.reFindall (PediAssist.altElems [[.lit "treat"]])
      (PediAssist.seqM PediAssist.starNoNL
        (PediAssist.altElems [[.lit "without"]]))
      "treat this\nwithout care" = [] := by decide

example :
    PediAssist.reFindall (PediAssist.altElems [[.lit "emergency"], [.lit "911"]])
      PediAssist.epsM "Emergency: call 911 now. x911y" = ["Emergency", "911"] := by decide

namespace PediAssist

/-! ## `safety.py` — `SafetyValidator` -/

/-- Result of a safety validation check (`SafetyCheck` dataclass). -/
structure SafetyCheck where
  is_safe : Bool
  reason : String
  severity : Severity
  flagged_terms : List String
  recommendations : List String
deriving Repr, DecidableEq

/-- `dangerous_patterns`, as (capture group, optional `.*(?:tail)`) pairs. -/
def dangerousPatterns : List (Matcher × Matcher) :=
  [ (altElems [[.lit "suicid"], [.lit "self", .optAny, .lit "harm"],
      [.lit "self", .optAny, .lit "injur"], [.lit "cutting"], [.lit "overdose"]], epsM),
    (altElems [[.lit "abus"], [.lit "misus"], [.lit "recreational"],
      [.lit "street", .optAny, .lit "drug"], [.lit "illegal", .optAny, .lit "drug"]], epsM),
    (altElems [[.lit "emergency"], [.lit "911"], [.lit "call", .optAny, .lit "911"],
      [.lit "urgent"], [.lit "life", .optAny, .lit "threatening"]], epsM),
    (altElems [[.lit "narcotic"], [.lit "opioid"], [.lit "benzodiazepine"],
      [.lit "controlled", .optAny, .lit "substance"]], epsM),
    (altElems [[.lit "diagnos"], [.lit "treat"], [.lit "prescribe"], [.lit "medication"]],
      seqM starNoNL (altElems [[.lit "without"], [.lit "no", .optAny, .lit "context"]])) ]

/-- `pediatric_safety_patterns`. -/
def pediatricSafetyPatterns : List (Matcher × Matcher) :=
  [ (altElems [[.lit "adult", .optAny, .lit "content"], [.lit "explicit"],
      [.lit "mature", .optAny, .lit "content"]], epsM),
    (altElems [[.lit "child", .optAny, .lit "abuse"], [.lit "neglect"],
      [.lit "maltreatment"]], epsM),
    (altElems [[.lit "adult", .optAny, .lit "dose"], [.lit "adult", .optAny, .lit "medication"]],
      seqM starNoNL (altElems [[.lit "child"], [.lit "infant"], [.lit "pediatric"]])) ]

/-- `professional_patterns`. -/
def professionalPatterns : List (Matcher × Matcher) :=
  [ (altElems [[.lit "my", .optAny, .lit "child"], [.lit "my", .optAny, .lit "kid"],
      [.lit "my", .optAny, .lit "baby"]],
      seqM starNoNL (altElems [[.lit "diagnos"], [.lit "treat"], [.lit "prescribe"]])),
    (altElems [[.lit "your", .optAny, .lit "child"], [.lit "your", .optAny, .lit "kid"]],
      seqM starNoNL (altElems [[.lit "medical", .optAny, .lit "history"], [.lit "symptoms"]])),
    (altElems [[.lit "personal", .optAny, .lit "information"],
      [.lit "private", .optAny, .lit "information"],
      [.lit "contact", .optAny, .lit "information"]], epsM) ]

/-- `_is_system_prompt`: at least three of the five indicators occur. -/
def isSystemPrompt (prompt : String) : Bool :=
  let indicators := ["You are PediAssist",
    "AI assistant specialized in pediatric healthcare",
    "Core Competencies", "Response Requirements", "Safety First"]
  3 ≤ (indicators.filter (strContains prompt ·)).length

/-- `_is_medical_safety_disclaimer`. -/
def isMedicalSafetyDisclaimer (term prompt : String) : Bool :=
  let safetyContexts := ["immediate medical attention", "emergency care",
    "delay emergency", "medical attention required", "when to escalate care",
    "call 911", "emergency room"]
  safetyContexts.any fun ctx => strContains (lowerStr prompt) ctx && strContains ctx term

/-- `_is_in_medical_context`. -/
def isInMedicalContext (term prompt : String) : Bool :=
  let medicalContexts := ["medical emergency", "emergency situations",
    "emergency services", "emergency department", "life threatening", "urgent medical"]
  medicalContexts.any fun ctx => strContains (lowerStr prompt) ctx && strContains ctx term

/-- `_filter_legitimate_medical_terms`. -/
def filterLegitimateMedicalTerms (ms : List String) (prompt : String) : List String :=
  ms.filter fun m =>
    let ml := lowerStr m
    !(isMedicalSafetyDisclaimer ml prompt) && !(isInMedicalContext ml prompt)

/-- `_is_medical_treatment_context`. -/
def isMedicalTreatmentContext (content : String) : Bool :=
  let medicalContexts := ["treatment", "therapy", "medication", "prescription",
    "diagnosis", "clinical", "medical", "healthcare", "pediatric", "therapeutic",
    "doctor", "physician", "pediatrician", "medications", "treatment plan"]
  medicalContexts.any (strContains (lowerStr content) ·)

/-- `_validate_age_appropriate_content` (`is_safe`/`flagged_terms`/`recommendations`). -/
structure AgeCheck where
  is_safe : Bool
  flagged_terms : List String
  recommendations : List String

/-- Age group classification used by `_validate_age_appropriate_content`. -/
def ageGroup (age : Int) : String :=
  if age < 1 then "infant"
  else if age < 3 then "toddler"
  else if age < 6 then "preschool"
  else if age < 13 then "school_age"
  else "adolescent"

/-- `_validate_age_appropriate_content`. -/
def validateAgeAppropriateContent (content : String) (age : Int) : AgeCheck :=
  let grp := ageGroup age
  let strict := (grp = "infant" || grp = "toddler" || grp = "preschool")
    && !(isMedicalTreatmentContext content)
  let adultTerms := ["medication", "diagnosis", "treatment", "prescription"]
  let flagged := if strict then
      adultTerms.filter (fun t => strContains (lowerStr content) t)
    else []
  { is_safe := flagged.isEmpty,
    flagged_terms := flagged,
    recommendations := flagged.map fun _ =>
      "Consider using age-appropriate language for " ++ grp ++ " age group." }

/-- `_check_medical_emergency` (`is_emergency` component). -/
def checkMedicalEmergency (content : String) : Bool :=
  let emergencyIndicators := ["call 911", "emergency room", "urgent care",
    "life threatening", "severe allergic reaction", "difficulty breathing",
    "unconscious", "severe bleeding", "chest pain", "seizure"]
  emergencyIndicators.any (strContains (lowerStr content) ·)

/-- `_generate_safety_reason`. -/
def generateSafetyReason (severity : Severity) (flagged : List String) : String :=
  match severity with
  | .critical => "Content indicates a medical emergency or serious safety concern."
  | .high => "Content contains concerning terms: " ++ joinWith ", " (flagged.take 3) ++ "."
  | .medium => "Content may be inappropriate: " ++ joinWith ", " (flagged.take 2) ++ "."
  | .low => "Content appears safe for pediatric healthcare use."

/-- `validate_prompt`.  The `context` dictionary is modelled by its only
consulted key, `age`.  `list(set(...))` deduplication is modelled as
keep-first deduplication (the claims never inspect the order). -/
def validatePrompt (prompt : String) (ctxAge : Option Int) : SafetyCheck :=
  if isSystemPrompt prompt then
    { is_safe := true,
      reason := "System prompt - legitimate medical safety content",
      severity := .low, flagged_terms := [], recommendations := [] }
  else
    let st0 : List String × Severity × List String := ([], .low, [])
    -- dangerous patterns
    let st1 := dangerousPatterns.foldl (fun (st : List String × Severity × List String) p =>
      let ms := reFindall p.1 p.2 prompt
      if !ms.isEmpty then
        let legit := filterLegitimateMedicalTerms ms prompt
        if !legit.isEmpty then
          (st.1 ++ legit, updateSeverity st.2.1 .high,
            st.2.2 ++ ["This request may involve serious medical concerns. Please consult emergency services."])
        else st
      else st) st0
    -- pediatric-specific patterns
    let st2 := pediatricSafetyPatterns.foldl (fun (st : List String × Severity × List String) p =>
      let ms := reFindall p.1 p.2 prompt
      if !ms.isEmpty then
        (st.1 ++ ms, updateSeverity st.2.1 .medium,
          st.2.2 ++ ["This request involves pediatric safety concerns."])
      else st) st1
    -- professional boundaries
    let st3 := professionalPatterns.foldl (fun (st : List String × Severity × List String) p =>
      let ms := reFindall p.1 p.2 prompt
      if !ms.isEmpty then
        (st.1 ++ ms, updateSeverity st.2.1 .medium,
          st.2.2 ++ ["Please maintain professional boundaries. This tool provides general information only."])
      else st) st2
    -- age-appropriate validation if age is provided
    let st4 := match ctxAge with
      | none => st3
      | some age =>
        let ac := validateAgeAppropriateContent prompt age
        if !ac.is_safe then
          (st3.1 ++ ac.flagged_terms, updateSeverity st3.2.1 .medium,
            st3.2.2 ++ ac.recommendations)
        else st3
    -- medical emergency indicators
    let st5 := if checkMedicalEmergency prompt then
        (st4.1, Severity.critical,
          st4.2.2 ++ ["This appears to be a medical emergency. Please call 911 or go to the nearest emergency room."])
      else st4
    let sev := st5.2.1
    let isSafe := !(sev = .high || sev = .critical)
    { is_safe := isSafe,
      reason := generateSafetyReason sev st5.1,
      severity := sev,
      flagged_terms := st5.1.eraseDups,
      recommendations := st5.2.2 }

end PediAssist

example :
    (PediAssist.validatePrompt "ear pain in a child" none).is_safe = true := by decide
example :
    (PediAssist.validatePrompt "how to overdose on pills" none).severity = .high := by decide
example :
    (PediAssist.validatePrompt "call 911 now" none).severity = .critical := by decide

namespace PediAssist

/-! ## `safety.py` — response-side checks -/

/-- `_contains_medical_advice`: any of the three advice patterns matches. -/
def containsMedicalAdvice (response : String) : Bool :=
  reSearchB (altElems [[.lit "should"], [.lit "must"], [.lit "need to"], [.lit "have to"]])
    (seqM starNoNL (altElems [[.lit "take"], [.lit "use"], [.lit "try"]])) response ||
  reSearchB (altElems [[.lit "recommend"], [.lit "suggest"], [.lit "advise"]])
    (seqM starNoNL (altElems [[.lit "medication"], [.lit "treatment"]])) response ||
  reSearchB (altElems [[.lit "dose"], [.lit "dosage"], [.lit "prescription"]])
    (seqM starNoNL (altElems [[.lit "mg"], [.lit "ml"], [.lit "times"]])) response

/-- `\b` after a match: the next character (if any) is not a word character. -/
def boundaryAfter (cs : List Char) (n : Nat) : Bool :=
  match cs.drop n with
  | [] => true
  | c :: _ => !isWordChar c

/-- Unit alternation `(mg|ml|g|kg|lbs|ounces?)\b` of the dosage pattern, in
source order with the greedy optional `s`; returns the matched text (original
case) and its length. -/
def matchDosageUnit (cs : List Char) : Option (String × Nat) :=
  let tryLit := fun (u : String) =>
    if (u.toList.map Char.toLower).isPrefixOf (cs.map Char.toLower) && boundaryAfter cs u.length
    then some ((⟨cs.take u.length⟩ : String), u.length) else none
  (tryLit "mg").orElse fun _ => (tryLit "ml").orElse fun _ =>
  (tryLit "g").orElse fun _ => (tryLit "kg").orElse fun _ =>
  (tryLit "lbs").orElse fun _ =>
    if ("ounce".toList).isPrefixOf (cs.map Char.toLower) then
      if (cs.drop 5).head?.map Char.toLower = some 's' && boundaryAfter cs 6 then
        some ((⟨cs.take 6⟩ : String), 6)
      else if boundaryAfter cs 5 then some ((⟨cs.take 5⟩ : String), 5)
      else none
    else none

/-- One match attempt of the dosage pattern
`\b(\d+(?:\.\d+)?)\s*(mg|ml|g|kg|lbs|ounces?)\b` at the current position
(the leading `\b` is checked by the caller).  Returns the two captured
groups and the total consumption. -/
def matchDosageAt (cs : List Char) : Option (String × String × Nat) :=
  let ds := cs.takeWhile Char.isDigit
  if ds.isEmpty then none
  else
    let rest1 := cs.drop ds.length
    let amtChars :=
      match rest1 with
      | '.' :: r2 =>
        let fs := r2.takeWhile Char.isDigit
        if fs.isEmpty then ds else ds ++ '.' :: fs
      | _ => ds
    let restA := cs.drop amtChars.length
    let wsLen := (restA.takeWhile pyIsSpace).length
    let restU := restA.drop wsLen
    (matchDosageUnit restU).map fun (u, ulen) =>
      ((⟨amtChars⟩ : String), u, amtChars.length + wsLen + ulen)

/-- `re.findall` loop for the dosage pattern. -/
def findallDosageAux : Nat → Option Char → List Char → List (String × String)
  | 0, _, _ => []
  | _ + 1, _, [] => []
  | fuel + 1, prev, c :: t =>
    let cs := c :: t
    match if boundaryOk prev then matchDosageAt cs else none with
    | some (amt, u, total) =>
      (amt, u) :: findallDosageAux fuel ((cs.take total).getLast?) (cs.drop total)
    | none => findallDosageAux fuel (some c) t

/-- All `(amount, unit)` captures of the dosage pattern in `response`. -/
def findallDosage (response : String) : List (String × String) :=
  findallDosageAux (response.length + 1) none response.toList

/-- `_is_patient_measurement`. -/
def isPatientMeasurement (measurement response : String) : Bool :=
  let ml := lowerStr measurement
  let rl := lowerStr response
  let patientContexts := ["weighs", "weight", "height", "tall", "length",
    "patient weighs", "blood pressure", "bp", "heart rate", "hr", "temperature",
    "temp", "respiratory rate", "rr", "oxygen saturation", "spo2", "vitals"]
  patientContexts.any fun ctx =>
    strContains rl ctx && strContains rl ml &&
      match strFind rl ctx, strFind rl ml with
      | some ci, some mi => natDist ci mi < 100
      | _, _ => false

/-- `_is_in_descriptive_context` (sentences obtained by `split('.')`). -/
def isInDescriptiveContext (measurement response : String) : Bool :=
  let descriptiveIndicators := ["available", "comes", "formulated", "manufactured",
    "supplied", "packaged", "prepared", "compounded", "produced"]
  (splitOnChar response '.').any fun sentence =>
    strContains (lowerStr sentence) measurement &&
      descriptiveIndicators.any (strContains (lowerStr sentence) ·)

/-- A character of the interpolated measurement inside `_appears_in_list`:
`.` (from a decimal amount) is a regex wildcard there, matching any
non-newline character. -/
def measCharMatches (p c : Char) : Bool :=
  if p = '.' then c ≠ '\n' else p.toLower = c.toLower

/-- Literal matcher for the interpolated measurement (with `.` wildcards). -/
def litMeas (m : String) : Matcher := fun cs =>
  let rec go : List Char → List Char → Bool
    | [], _ => true
    | _ :: _, [] => false
    | p :: ps, c :: t => measCharMatches p c && go ps t
  if go m.toList cs then [m.length] else []

/-- `\s*` matcher. -/
def starWs : Matcher := fun cs =>
  let k := (cs.takeWhile pyIsSpace).length
  (List.range (k + 1)).reverse

/-- `\d+` matcher (greedy first). -/
def plusDigits : Matcher := fun cs =>
  let k := (cs.takeWhile Char.isDigit).length
  ((List.range k).map (· + 1)).reverse

/-- `re.search` without a word-boundary requirement (used by
`_appears_in_list`, whose patterns do not begin with `\b`). -/
def searchNoBoundary (pat : Matcher) : Nat → List Char → Bool
  | 0, _ => false
  | fuel + 1, cs =>
    !(pat cs).isEmpty ||
      match cs with
      | [] => false
      | _ :: t => searchNoBoundary pat fuel t

/-- `_appears_in_list`. -/
def appearsInList (measurement response : String) : Bool :=
  let sep := altElems [[.lit "and"], [.lit "or"], [.lit ","]]
  let unit := altElems [[.lit "mg"], [.lit "ml"], [.lit "g"]]
  let pat1 := seqM (litMeas measurement) (seqM starWs (seqM sep (seqM starWs
    (seqM plusDigits (seqM starWs unit)))))
  let pat2 := seqM plusDigits (seqM starWs (seqM sep (seqM starWs
    (litMeas measurement))))
  searchNoBoundary pat1 (response.length + 1) response.toList ||
    searchNoBoundary pat2 (response.length + 1) response.toList

/-- `_is_medication_description`. -/
def isMedicationDescription (measurement response : String) : Bool :=
  let ml := lowerStr measurement
  let rl := lowerStr response
  let descriptionContexts := ["comes in", "available in", "formulated as",
    "tablets of", "capsules of", "strengths of", "concentration", "preparation",
    "formulation", "available as", "supplied as", "provided as",
    "manufactured as", "packaged as"]
  (descriptionContexts.any fun ctx =>
    strContains rl ctx &&
      match strFind rl ctx, strFind rl ml with
      | some ci, some mi => natDist ci mi < 200 || isInDescriptiveContext ml rl
      | _, _ => false) ||
  ((strContains rl "and" || strContains rl "or") && appearsInList ml rl)

/-- `_is_procedural_documentation`. -/
def isProceduralDocumentation (measurement response : String) : Bool :=
  let ml := lowerStr measurement
  let rl := lowerStr response
  let proceduralPhrases := ["received", "was administered", "was given",
    "was infused", "was injected", "during the procedure", "post procedure",
    "pre operative", "intraoperative", "normal saline",
    "ringer's lactate", "dextrose", "lactated ringer's",
    "fluid resuscitation", "fluid therapy", "iv fluids"]
  let pastTense := ["received", "administered", "given", "infused",
    "injected", "transfused"]
  proceduralPhrases.any fun phrase =>
    strContains rl phrase && strContains rl ml &&
      (pastTense.any (strContains rl ·) ||
        match strFind rl phrase, strFind rl ml with
        | some pi, some mi => natDist pi mi < 150
        | _, _ => false)

/-- `_is_legitimate_medical_context`. -/
def isLegitimateMedicalContext (_measurement response : String) : Bool :=
  let rl := lowerStr response
  let treatmentContexts := ["treatment", "therapy", "medication", "prescribed",
    "dosage", "dosing", "administered", "given", "recommended", "indicated",
    "therapeutic", "clinical", "medical", "healthcare", "pediatric"]
  let medicalIndicators := ["diagnosis", "treatment plan", "medical advice",
    "healthcare provider", "doctor", "physician", "pediatrician", "clinical",
    "therapeutic"]
  medicalIndicators.any (strContains rl ·) || treatmentContexts.any (strContains rl ·)

/-- `_has_medical_disclaimer`. -/
def hasMedicalDisclaimer (response : String) : Bool :=
  let disclaimers := ["not medical advice", "consult your doctor",
    "healthcare provider", "medical professional", "not a substitute",
    "informational purposes only"]
  disclaimers.any (strContains (lowerStr response) ·)

/-- `_has_dosage_disclaimer`. -/
def hasDosageDisclaimer (response : String) : Bool :=
  let dosageDisclaimers := ["dosage should be verified", "dose must be confirmed",
    "dosage by healthcare provider", "prescribed by doctor",
    "under medical supervision", "professional dosage", "recommended dose",
    "as prescribed", "per physician", "according to doctor"]
  dosageDisclaimers.any (strContains (lowerStr response) ·)

/-- `_contains_emergency_indicators`. -/
def containsEmergencyIndicators (response : String) : Bool :=
  let emergencyTerms := ["emergency", "urgent", "immediate", "call 911",
    "go to hospital"]
  emergencyTerms.any (strContains (lowerStr response) ·)

/-- `_has_emergency_disclaimer`. -/
def hasEmergencyDisclaimer (response : String) : Bool :=
  let disclaimers := ["call 911", "emergency room", "immediate medical attention",
    "seek emergency care", "contact emergency services"]
  disclaimers.any (strContains (lowerStr response) ·)

/-- The `actual_match` format chosen for an `(amount, unit)` capture. -/
def actualMatch (response amount unit : String) : String :=
  let unspaced := amount ++ unit
  if strContains (lowerStr response) (lowerStr unspaced) then unspaced
  else amount ++ " " ++ unit

/-- The `concerning_dosages` accumulated by `_validate_dosage_information`. -/
def concerningDosages (response : String) : List String :=
  (findallDosage response).filterMap fun (amount, unit) =>
    let actual := actualMatch response amount unit
    if isPatientMeasurement actual response then none
    else if isMedicationDescription actual response then none
    else if isProceduralDocumentation actual response then none
    else if isLegitimateMedicalContext actual response then none
    else some actual

/-- Result triple of `_validate_dosage_information`. -/
structure DosageCheck where
  is_safe : Bool
  flagged_terms : List String
  recommendations : List String

/-- `_validate_dosage_information`. -/
def validateDosageInformation (response : String) : DosageCheck :=
  let concerning := concerningDosages response
  let hasDisc := hasMedicalDisclaimer response
  let hasDosDisc := hasDosageDisclaimer response
  let (flagged, recs) :=
    if !concerning.isEmpty then
      if !(hasDisc || hasDosDisc) then
        (concerning,
          ["Dosage information should always be verified with a healthcare provider.",
           "Include disclaimer that dosages must be confirmed by a medical professional."])
      else
        ([], ["Ensure dosage information is accompanied by appropriate medical disclaimers."])
    else ([], [])
  { is_safe := concerning.isEmpty ||
      (!concerning.isEmpty && (hasMedicalDisclaimer response || hasDosageDisclaimer response)),
    flagged_terms := flagged,
    recommendations := recs }

/-- `_validate_age_appropriate_response` (`is_safe`/`recommendations`). -/
def validateAgeAppropriateResponse (response : String) (age : Int) : AgeCheck :=
  let recs := if age < 6 then
      (["pathophysiology", "etiology", "prognosis", "diagnosis"].filter
        (fun t => strContains (lowerStr response) t)).map fun _ =>
          "Consider simplifying medical terminology."
    else []
  { is_safe := recs.isEmpty, flagged_terms := [], recommendations := recs }

/-- Running validation state of `validate_response`: the accumulated
`flagged_terms`, severity and `recommendations`. -/
abbrev VState := List String × Severity × List String

/-- One conditional step of `validate_response`: when `cond` holds, extend
the flagged terms and recommendations and merge in the step's severity. -/
def stepSC (st : VState) (cond : Bool) (fl : List String) (sv : Severity)
    (recs : List String) : VState :=
  if cond then (st.1 ++ fl, updateSeverity st.2.1 sv, st.2.2 ++ recs) else st

/-- The age-appropriateness step of `validate_response` (runs only when the
context carries an `age`; it extends only the recommendations). -/
def respAgeStep (response : String) (ctxAge : Option Int) (st : VState) : VState :=
  match ctxAge with
  | none => st
  | some age =>
    let ac := validateAgeAppropriateResponse response age
    stepSC st (!ac.is_safe) [] .medium ac.recommendations

/-- `validate_response`.  The `context` dictionary is modelled by its only
consulted key, `age`. -/
def validateResponse (response : String) (ctxAge : Option Int) : SafetyCheck :=
  let dc := validateDosageInformation response
  -- the five checks, in source order
  let st1 := stepSC ([], .low, []) (containsMedicalAdvice response) [] .medium
    ["Response contains medical advice. Ensure appropriate disclaimers are included."]
  let st2 := stepSC st1 (!dc.is_safe) dc.flagged_terms .high dc.recommendations
  let st3 := stepSC st2
    (containsEmergencyIndicators response && !hasEmergencyDisclaimer response) [] .high
    ["Response discusses emergency situations but lacks appropriate disclaimers."]
  let st4 := respAgeStep response ctxAge st3
  let st5 := stepSC st4 (!hasMedicalDisclaimer response) [] .medium
    ["Response should include appropriate medical disclaimers."]
  let sev := st5.2.1
  let isSafe := !(sev = .high || sev = .critical)
  { is_safe := isSafe,
    reason := generateSafetyReason sev st5.1,
    severity := sev,
    flagged_terms := st5.1.eraseDups,
    recommendations := st5.2.2 }

end PediAssist

example : PediAssist.findallDosage "give 2.5 mg now, or 500mg of x" =
    [("2.5", "mg"), ("500", "mg")] := by decide
example : PediAssist.findallDosage "10 ounces and 3kg" =
    [("10", "ounces"), ("3", "kg")] := by decide
example : (PediAssist.validateResponse "This is urgent." none).severity = .high := by decide
example : (PediAssist.validateResponse "This is urgent." none).is_safe = false := by decide
example :
    (PediAssist.validateResponse "Amoxicillin 500 mg twice daily. Dosage should be verified with your pediatrician." none).is_safe = true := by decide

namespace PediAssist

/-- Severity merging never decreases the level. -/
theorem updateSeverity_mono (a b : Severity) : a.toNat ≤ (updateSeverity a b).toNat := by
  cases a <;> cases b <;> decide

/-- Merging in `high` yields at least `high`. -/
theorem updateSeverity_high (a : Severity) : 2 ≤ (updateSeverity a .high).toNat := by
  cases a <;> decide

/-- The merged severity is bounded by the larger of the two inputs. -/
theorem updateSeverity_le (a b : Severity) :
    (updateSeverity a b).toNat ≤ max a.toNat b.toNat := by
  cases a <;> cases b <;> decide

/-- A validation step never lowers the severity. -/
theorem stepSC_sev_mono (st : VState) (c : Bool) (fl : List String) (sv : Severity)
    (recs : List String) : st.2.1.toNat ≤ (stepSC st c fl sv recs).2.1.toNat := by
  unfold stepSC
  split
  · exact updateSeverity_mono _ _
  · exact le_rfl

/-- A firing `high` step pushes the severity to at least `high`. -/
theorem stepSC_high (st : VState) (fl : List String) (recs : List String) :
    2 ≤ (stepSC st true fl .high recs).2.1.toNat := by
  simpa [stepSC] using updateSeverity_high st.2.1

/-- A step whose severity is at most `medium` keeps the state below `high`. -/
theorem stepSC_le_medium (st : VState) (c : Bool) (fl : List String) (sv : Severity)
    (recs : List String) (hst : st.2.1.toNat ≤ 1) (hsv : sv.toNat ≤ 1) :
    (stepSC st c fl sv recs).2.1.toNat ≤ 1 := by
  unfold stepSC
  split
  · exact le_trans (updateSeverity_le _ _) (max_le hst hsv)
  · exact hst

/-- The age step never lowers the severity. -/
theorem respAgeStep_sev_mono (response : String) (ctxAge : Option Int) (st : VState) :
    st.2.1.toNat ≤ (respAgeStep response ctxAge st).2.1.toNat := by
  unfold respAgeStep
  cases ctxAge with
  | none => exact le_rfl
  | some age => exact stepSC_sev_mono ..

/-- The age step keeps the state below `high`. -/
theorem respAgeStep_le_medium (response : String) (ctxAge : Option Int) (st : VState)
    (hst : st.2.1.toNat ≤ 1) : (respAgeStep response ctxAge st).2.1.toNat ≤ 1 := by
  unfold respAgeStep
  cases ctxAge with
  | none => exact hst
  | some age => exact stepSC_le_medium _ _ _ _ _ hst (by decide)

/-- `is_safe` of `validate_response` in terms of the severity level. -/
theorem severity_unsafe_iff (s : Severity) :
    (!(s = .high || s = .critical) : Bool) = false ↔ 2 ≤ s.toNat := by
  cases s <;> simp [Severity.toNat]

end PediAssist

/-- C6: a text containing an emergency-indicating phrase and lacking every
escalation disclaimer makes `validate_response` return severity at least
"high", hence `is_safe = false`. -/
theorem c6_emergency_without_disclaimer_high (response : String) (ctxAge : Option Int)
    (h1 : PediAssist.containsEmergencyIndicators response = true)
    (h2 : PediAssist.hasEmergencyDisclaimer response = false) :
    2 ≤ ((PediAssist.validateResponse response ctxAge).severity).toNat ∧
      (PediAssist.validateResponse response ctxAge).is_safe = false := by
  unfold PediAssist.validateResponse
  simp only [h1, h2, Bool.not_false, Bool.and_true, Bool.and_self]
  constructor
  · exact le_trans (le_trans (PediAssist.stepSC_high ..)
      (PediAssist.respAgeStep_sev_mono ..)) (PediAssist.stepSC_sev_mono ..)
  · exact (PediAssist.severity_unsafe_iff _).mpr
      (le_trans (le_trans (PediAssist.stepSC_high ..)
        (PediAssist.respAgeStep_sev_mono ..)) (PediAssist.stepSC_sev_mono ..))

/-- C6 witness: a concrete emergency-flavoured text without disclaimers. -/
theorem c6_emergency_without_disclaimer_high_witness :
    2 ≤ ((PediAssist.validateResponse "This is urgent." none).severity).toNat ∧
      (PediAssist.validateResponse "This is urgent." none).is_safe = false :=
  c6_emergency_without_disclaimer_high "This is urgent." none (by decide) (by decide)


namespace PediAssist

/-- A non-firing step leaves the state unchanged. -/
theorem stepSC_false (st : VState) (fl : List String) (sv : Severity)
    (recs : List String) : stepSC st false fl sv recs = st := by
  simp [stepSC]

/-- Severity below `high` means the verdict is safe. -/
theorem severity_safe_of_le (s : Severity) (h : s.toNat ≤ 1) :
    (!(s = .high || s = .critical) : Bool) = true := by
  cases s <;> first | rfl | exact absurd h (by decide)

/-- With a dosage disclaimer present, `_validate_dosage_information` is safe. -/
theorem validateDosageInformation_safe_of_disclaimer (response : String)
    (hdisc : hasDosageDisclaimer response = true) :
    (validateDosageInformation response).is_safe = true := by
  unfold validateDosageInformation
  simp [hdisc]

end PediAssist

/-- C7: a treatment-plan text that carries one of the recognised
"verify with a clinician"-style dosage disclaimers (`_has_dosage_disclaimer`)
and that does not discuss emergencies without an escalation disclaimer (the
"legitimate treatment plan" side conditions) is judged safe even when it
contains dosage figures: the dosage check is suppressed and never raises the
severity to `high`. -/
theorem c7_dosage_with_disclaimer_safe (response : String) (ctxAge : Option Int)
    (hdisc : PediAssist.hasDosageDisclaimer response = true)
    (hdos : (PediAssist.findallDosage response).isEmpty = false)
    (hem : (PediAssist.containsEmergencyIndicators response &&
      !PediAssist.hasEmergencyDisclaimer response) = false) :
    (PediAssist.validateDosageInformation response).is_safe = true ∧
      (PediAssist.validateResponse response ctxAge).is_safe = true := by
  have hdc := PediAssist.validateDosageInformation_safe_of_disclaimer response hdisc
  refine ⟨hdc, ?_⟩
  unfold PediAssist.validateResponse
  simp only [hdc, Bool.not_true, hem, PediAssist.stepSC_false]
  exact PediAssist.severity_safe_of_le _
    (PediAssist.stepSC_le_medium _ _ _ _ _
      (PediAssist.respAgeStep_le_medium _ _ _
        (PediAssist.stepSC_le_medium _ _ _ _ _ (by decide) (by decide)))
      (by decide))

/-- C7 witness: a dosage figure plus a recognised dosage disclaimer. -/
theorem c7_dosage_with_disclaimer_safe_witness :
    (PediAssist.validateDosageInformation
      "Amoxicillin 500 mg twice daily. Dosage should be verified with your pediatrician.").is_safe = true ∧
    (PediAssist.validateResponse
      "Amoxicillin 500 mg twice daily. Dosage should be verified with your pediatrician."
      none).is_safe = true :=
  c7_dosage_with_disclaimer_safe _ none (by decide) (by decide) (by decide)

namespace PediAssist

/-! ## A model of Python `json`

`json.loads` / `json.dumps` are modelled over an explicit JSON value type.
Numbers keep their source literal (`json` transmits them textually; the
fallback payload only ever contains the literals `0.5` and `1`).  Escaped
lone surrogates — which CPython tolerates inside strings but which are not
representable as Lean `Char` scalar values — are treated as parse errors;
no string of this development produces them. -/

/-- JSON values.  `num` carries the numeric literal. -/
inductive Json where
  | null : Json
  | bool (b : Bool) : Json
  | num (lit : String) : Json
  | str (s : String) : Json
  | arr (xs : List Json) : Json
  | obj (fields : List (String × Json)) : Json
deriving Repr, BEq

/-- Lower-case hexadecimal digit. -/
def hexDigitChar (n : Nat) : Char :=
  if n < 10 then Char.ofNat ('0'.toNat + n) else Char.ofNat ('a'.toNat + (n - 10))

/-- The four hexadecimal digits of a `\uXXXX` escape. -/
def hex4 (n : Nat) : List Char :=
  [hexDigitChar (n / 4096 % 16), hexDigitChar (n / 256 % 16),
    hexDigitChar (n / 16 % 16), hexDigitChar (n % 16)]

/-- `\uXXXX` escape (lower-case, as produced by `json.dumps`). -/
def uEscape (n : Nat) : List Char :=
  '\\' :: 'u' :: hex4 n

/-- `json.dumps` escaping of one character (`ensure_ascii=True`). -/
def escapeChar (c : Char) : List Char :=
  if c = '"' then ['\\', '"']
  else if c = '\\' then ['\\', '\\']
  else if c = '\n' then ['\\', 'n']
  else if c = '\x0d' then ['\\', 'r']
  else if c = '\t' then ['\\', 't']
  else if c = '\x08' then ['\\', 'b']
  else if c = '\x0c' then ['\\', 'f']
  else if c.toNat < 0x20 then uEscape c.toNat
  else if c.toNat < 0x7f then [c]
  else if c.toNat < 0x10000 then uEscape c.toNat
  else
    uEscape (0xd800 + (c.toNat - 0x10000) / 0x400) ++
      uEscape (0xdc00 + (c.toNat - 0x10000) % 0x400)

/-- `json.dumps` escaping of a character list. -/
def escapeChars : List Char → List Char
  | [] => []
  | c :: t => escapeChar c ++ escapeChars t

/-- A `json.dumps` string literal (quotes included). -/
def dumpsString (s : String) : String :=
  ⟨'"' :: escapeChars s.toList ++ ['"']⟩

/-- `n` spaces (the `indent=2` indentation of `json.dumps`). -/
def spacesStr (n : Nat) : String :=
  ⟨List.replicate n ' '⟩

mutual

/-- `json.dumps(v, indent=2)`, at the given current indentation. -/
def dumpsVal (ind : Nat) : Json → String
  | .null => "null"
  | .bool true => "true"
  | .bool false => "false"
  | .num lit => lit
  | .str s => dumpsString s
  | .arr [] => "[]"
  | .arr (x :: t) =>
    "[\n" ++ spacesStr (ind + 2) ++ dumpsVal (ind + 2) x ++
      dumpsArrRest (ind + 2) t ++ "\n" ++ spacesStr ind ++ "]"
  | .obj [] => "\x7b\x7d"
  | .obj ((k, v) :: t) =>
    "\x7b\n" ++ spacesStr (ind + 2) ++ dumpsString k ++ ": " ++ dumpsVal (ind + 2) v ++
      dumpsObjRest (ind + 2) t ++ "\n" ++ spacesStr ind ++ "\x7d"

/-- Remaining array items, each preceded by `,\n` and indentation. -/
def dumpsArrRest (ind : Nat) : List Json → String
  | [] => ""
  | x :: t => ",\n" ++ spacesStr ind ++ dumpsVal ind x ++ dumpsArrRest ind t

/-- Remaining object fields, each preceded by `,\n` and indentation. -/
def dumpsObjRest (ind : Nat) : List (String × Json) → String
  | [] => ""
  | (k, v) :: t =>
    ",\n" ++ spacesStr ind ++ dumpsString k ++ ": " ++ dumpsVal ind v ++ dumpsObjRest ind t

end

/-- Top-level `json.dumps(v, indent=2)`. -/
def jsonDumps (v : Json) : String := dumpsVal 0 v

end PediAssist

example : PediAssist.jsonDumps (.obj [("a", .num "1"), ("b", .arr [.str "x", .null])]) =
    "\x7b\n  \"a\": 1,\n  \"b\": [\n    \"x\",\n    null\n  ]\n\x7d" := by decide
example : PediAssist.jsonDumps (.str "a\"b\\c\n") = "\"a\\\"b\\\\c\\n\"" := by decide

namespace PediAssist

/-- JSON inter-token whitespace (`json.decoder` `[ \t\n\r]`). -/
def jsonWs (c : Char) : Bool :=
  c = ' ' || c = '\t' || c = '\n' || c = '\x0d'

/-- Skip JSON whitespace. -/
def skipJsonWs (cs : List Char) : List Char :=
  cs.dropWhile jsonWs

/-- Value of one hexadecimal digit. -/
def hexVal (c : Char) : Option Nat :=
  let n := c.toNat
  if 48 ≤ n && n ≤ 57 then some (n - 48)
  else if 97 ≤ n && n ≤ 102 then some (n - 97 + 10)
  else if 65 ≤ n && n ≤ 70 then some (n - 65 + 10)
  else none

/-- Four hexadecimal digits of a `\uXXXX` escape. -/
def parseHex4 : List Char → Option (Nat × List Char)
  | c1 :: c2 :: c3 :: c4 :: rest => do
    let d1 ← hexVal c1
    let d2 ← hexVal c2
    let d3 ← hexVal c3
    let d4 ← hexVal c4
    pure (((d1 * 16 + d2) * 16 + d3) * 16 + d4, rest)
  | _ => none

/-- String body after the opening quote (strict mode: raw control
characters are rejected), accumulating the decoded characters reversed. -/
def parseStringBody : Nat → List Char → List Char → Option (String × List Char)
  | 0, _, _ => none
  | _ + 1, [], _ => none
  | fuel + 1, c :: t, acc =>
    if c = '"' then some (⟨acc.reverse⟩, t)
    else if c = '\\' then
      match t with
      | [] => none
      | e :: t2 =>
        if e = '"' then parseStringBody fuel t2 ('"' :: acc)
        else if e = '\\' then parseStringBody fuel t2 ('\\' :: acc)
        else if e = '/' then parseStringBody fuel t2 ('/' :: acc)
        else if e = 'b' then parseStringBody fuel t2 ('\x08' :: acc)
        else if e = 'f' then parseStringBody fuel t2 ('\x0c' :: acc)
        else if e = 'n' then parseStringBody fuel t2 ('\n' :: acc)
        else if e = 'r' then parseStringBody fuel t2 ('\x0d' :: acc)
        else if e = 't' then parseStringBody fuel t2 ('\t' :: acc)
        else if e = 'u' then
          match parseHex4 t2 with
          | none => none
          | some (h1, t3) =>
            if 0xd800 ≤ h1 ∧ h1 < 0xdc00 then
              -- high surrogate: CPython pairs it with a following low one
              match t3 with
              | '\\' :: 'u' :: t4 =>
                match parseHex4 t4 with
                | some (h2, t5) =>
                  if 0xdc00 ≤ h2 ∧ h2 < 0xe000 then
                    parseStringBody fuel t5
                      (Char.ofNat (0x10000 + (h1 - 0xd800) * 0x400 + (h2 - 0xdc00)) :: acc)
                  else none
                | none => none
              | _ => none
            else if 0xdc00 ≤ h1 ∧ h1 < 0xe000 then none
            else parseStringBody fuel t3 (Char.ofNat h1 :: acc)
        else none
    else if c.toNat < 0x20 then none
    else parseStringBody fuel t (c :: acc)

/-- A string literal starting at the opening quote. -/
def parseStr (cs : List Char) : Option (String × List Char) :=
  match cs with
  | '"' :: t => parseStringBody (t.length + 1) t []
  | _ => none

/-- The number grammar of `json` (`NUMBER_RE`), returning the literal. -/
def parseNumber (cs : List Char) : Option (String × List Char) :=
  let (neg, cs1) :=
    match cs with
    | '-' :: t => (['-'], t)
    | _ => (([] : List Char), cs)
  match cs1 with
  | [] => none
  | c :: t =>
    if c = '0' then
      let (frac, cs2) := parseFracExp t
      some (⟨neg ++ '0' :: frac⟩, cs2)
    else if '1' ≤ c && c ≤ '9' then
      let ds := t.takeWhile Char.isDigit
      let t2 := t.drop ds.length
      let (frac, cs2) := parseFracExp t2
      some (⟨neg ++ c :: ds ++ frac⟩, cs2)
    else none
where
  /-- Optional fraction and exponent parts, greedy. -/
  parseFracExp (cs : List Char) : List Char × List Char :=
    let (fr, cs1) :=
      match cs with
      | '.' :: t =>
        let ds := t.takeWhile Char.isDigit
        if ds.isEmpty then (([] : List Char), cs)
        else ('.' :: ds, t.drop ds.length)
      | _ => ([], cs)
    let (ex, cs2) :=
      match cs1 with
      | e :: t =>
        if e = 'e' || e = 'E' then
          let (sgn, t1) :=
            match t with
            | s :: t1 => if s = '+' || s = '-' then ([s], t1) else (([] : List Char), t)
            | [] => ([], t)
          let ds := t1.takeWhile Char.isDigit
          if ds.isEmpty then (([] : List Char), cs1)
          else (e :: sgn ++ ds, t1.drop ds.length)
        else ([], cs1)
      | [] => ([], cs1)
    (fr ++ ex, cs2)

/-- Dispatch after `\x7b` and whitespace: an empty object or its fields. -/
def objTail (pObj : List Char → Option (List (String × Json) × List Char))
    (t1 : List Char) : Option (Json × List Char) :=
  match t1 with
  | '\x7d' :: t2 => some (.obj [], t2)
  | _ => (pObj t1).map fun (fs, r) => (.obj fs, r)

/-- Dispatch after `[` and whitespace: an empty array or its items. -/
def arrTail (pArr : List Char → Option (List Json × List Char))
    (t1 : List Char) : Option (Json × List Char) :=
  match t1 with
  | ']' :: t2 => some (.arr [], t2)
  | _ => (pArr t1).map fun (xs, r) => (.arr xs, r)

mutual

/-- One JSON value (leading whitespace skipped), `json.decoder` dispatch. -/
def parseValue : Nat → List Char → Option (Json × List Char)
  | 0, _ => none
  | fuel + 1, cs =>
    let cs := skipJsonWs cs
    match cs with
    | [] => none
    | c :: t =>
      if c = '"' then (parseStringBody (t.length + 1) t []).map fun (s, r) => (.str s, r)
      else if c = '\x7b' then objTail (parseObjItems fuel) (skipJsonWs t)
      else if c = '[' then arrTail (parseArrItems fuel) (skipJsonWs t)
      else if "null".toList.isPrefixOf cs then some (.null, cs.drop 4)
      else if "true".toList.isPrefixOf cs then some (.bool true, cs.drop 4)
      else if "false".toList.isPrefixOf cs then some (.bool false, cs.drop 5)
      else
        match parseNumber cs with
        | some (lit, r) => some (.num lit, r)
        | none =>
          if "NaN".toList.isPrefixOf cs then some (.num "NaN", cs.drop 3)
          else if "Infinity".toList.isPrefixOf cs then some (.num "Infinity", cs.drop 8)
          else if "-Infinity".toList.isPrefixOf cs then some (.num "-Infinity", cs.drop 9)
          else none

/-- Fields of a non-empty object, starting at the first key. -/
def parseObjItems : Nat → List Char → Option (List (String × Json) × List Char)
  | 0, _ => none
  | fuel + 1, cs => do
    let (k, r1) ← parseStr cs
    let r2 := skipJsonWs r1
    match r2 with
    | ':' :: r3 => do
      let (v, r4) ← parseValue fuel r3
      let r5 := skipJsonWs r4
      match r5 with
      | ',' :: r6 => (parseObjItems fuel (skipJsonWs r6)).map fun (fs, r) => ((k, v) :: fs, r)
      | '\x7d' :: r6 => some ([(k, v)], r6)
      | _ => none
    | _ => none

/-- Items of a non-empty array, starting at the first item. -/
def parseArrItems : Nat → List Char → Option (List Json × List Char)
  | 0, _ => none
  | fuel + 1, cs => do
    let (v, r1) ← parseValue fuel cs
    let r2 := skipJsonWs r1
    match r2 with
    | ',' :: r3 => (parseArrItems fuel r3).map fun (xs, r) => (v :: xs, r)
    | ']' :: r3 => some ([v], r3)
    | _ => none

end

/-- `json.loads`: parse one value and require only whitespace afterwards
(the "Extra data" check of `json.loads`). -/
def jsonLoads (s : String) : Option Json :=
  match parseValue (s.length + 1) s.toList with
  | some (v, rest) => if (skipJsonWs rest).isEmpty then some v else none
  | none => none

end PediAssist

example : PediAssist.jsonLoads "\x7b \"a\": [1, 2.5e-1, \"x\\n\"] \x7d" =
    some (.obj [("a", .arr [.num "1", .num "2.5e-1", .str "x\n"])]) := by rfl
example : PediAssist.jsonLoads "plain prose" = none := by rfl
example : PediAssist.jsonLoads " 0123 " = none := by rfl
example : PediAssist.jsonLoads "\x7b\x7d extra" = none := by rfl
example : PediAssist.jsonLoads "NaN" = some (.num "NaN") := by rfl
example : PediAssist.jsonLoads "\"\\ud83d\\ude00\"" = some (.str "😀") := by rfl
example : PediAssist.jsonLoads (PediAssist.jsonDumps
    (.obj [("k", .str "a\"b\\c😀\u0007"), ("l", .arr [.num "0.5"])])) =
  some (.obj [("k", .str "a\"b\\c😀\u0007"), ("l", .arr [.num "0.5"])]) := by rfl

namespace PediAssist

/-- `hexVal` decodes the digits that `hexDigitChar` produces. -/
theorem hexVal_hexDigitChar (d : Nat) (h : d < 16) : hexVal (hexDigitChar d) = some d := by
  interval_cases d <;> rfl

/-- `parseHex4` decodes `hex4`. -/
theorem parseHex4_hex4 (n : Nat) (h : n < 65536) (rest : List Char) :
    parseHex4 (hex4 n ++ rest) = some (n, rest) := by
  have h1 : n / 4096 % 16 < 16 := Nat.mod_lt _ (by norm_num)
  have h2 : n / 256 % 16 < 16 := Nat.mod_lt _ (by norm_num)
  have h3 : n / 16 % 16 < 16 := Nat.mod_lt _ (by norm_num)
  have h4 : n % 16 < 16 := Nat.mod_lt _ (by norm_num)
  simp only [hex4, List.cons_append, List.nil_append, parseHex4,
    hexVal_hexDigitChar _ h1, hexVal_hexDigitChar _ h2, hexVal_hexDigitChar _ h3,
    hexVal_hexDigitChar _ h4, Option.bind_some, Option.some_bind, bind, Option.bind,
    pure, Option.some.injEq, Prod.mk.injEq]
  constructor
  · omega
  · trivial

/-- Skipping whitespace ignores a leading all-whitespace segment. -/
theorem skipJsonWs_append (l1 l2 : List Char) (h : ∀ c ∈ l1, jsonWs c = true) :
    skipJsonWs (l1 ++ l2) = skipJsonWs l2 := by
  induction l1 with
  | nil => rfl
  | cons c t ih =>
    simp only [List.cons_append, skipJsonWs, List.dropWhile_cons,
      h c (by simp), if_true]
    exact ih fun x hx => h x (by simp [hx])

/-- Skipping whitespace stops at a non-whitespace head. -/
theorem skipJsonWs_cons (c : Char) (t : List Char) (h : jsonWs c = false) :
    skipJsonWs (c :: t) = c :: t := by
  simp [skipJsonWs, List.dropWhile_cons, h]

/-- The `\n` plus indentation emitted by the printer is all whitespace. -/
theorem nlIndent_ws (n : Nat) : ∀ c ∈ '\n' :: (spacesStr n).toList, jsonWs c = true := by
  intro c hc
  simp only [List.mem_cons] at hc
  rcases hc with rfl | hc
  · rfl
  · have hc2 : c = ' ' :=
      List.eq_of_mem_replicate (by simpa [spacesStr] using hc)
    simp [hc2, jsonWs]

end PediAssist

namespace PediAssist

/-- Validity of a character's scalar value, in arithmetic form. -/
theorem char_valid_nat (c : Char) :
    c.toNat < 0xd800 ∨ (0xe000 ≤ c.toNat ∧ c.toNat < 0x110000) := c.valid


/-- One BMP `\uXXXX` escape consumed by the string parser. -/
theorem parseStringBody_u_bmp (f n : Nat) (hn : n < 65536)
    (hs : ¬(0xd800 ≤ n ∧ n < 0xe000)) (l acc : List Char) :
    parseStringBody (f + 1) ('\\' :: 'u' :: (hex4 n ++ l)) acc =
      parseStringBody f l (Char.ofNat n :: acc) := by
  rw [parseStringBody]
  simp only [parseHex4_hex4 _ hn]
  simp +decide
  rw [if_neg (by omega), if_neg (by omega)]

/-- A surrogate-pair escape consumed by the string parser. -/
theorem parseStringBody_u_pair (f n : Nat) (hn1 : 0x10000 ≤ n) (hn2 : n < 0x110000)
    (l acc : List Char) :
    parseStringBody (f + 1)
      ('\\' :: 'u' :: (hex4 (0xd800 + (n - 0x10000) / 0x400) ++
        ('\\' :: 'u' :: (hex4 (0xdc00 + (n - 0x10000) % 0x400) ++ l)))) acc =
      parseStringBody f l (Char.ofNat n :: acc) := by
  rw [parseStringBody]
  rw [parseHex4_hex4 (0xd800 + (n - 0x10000) / 0x400) (by omega)]
  simp +decide
  rw [if_pos (show 0xd800 + (n - 0x10000) / 0x400 < 0xdc00 from by omega)]
  rw [parseHex4_hex4 (0xdc00 + (n - 0x10000) % 0x400) (by omega)]
  simp +decide
  rw [if_pos (show 0xdc00 + (n - 0x10000) % 0x400 < 0xe000 from by omega)]
  rw [show 0x10000 + (n - 0x10000) / 0x400 * 0x400 + (n - 0x10000) % 0x400 = n from by
    omega]

/-- A raw (unescaped) character consumed by the string parser. -/
theorem parseStringBody_raw (f : Nat) (c : Char) (h1 : c ≠ '"') (h2 : c ≠ '\\')
    (h3 : ¬ c.toNat < 0x20) (l acc : List Char) :
    parseStringBody (f + 1) (c :: l) acc = parseStringBody f l (c :: acc) := by
  rw [parseStringBody.eq_def]
  simp only [if_neg h1, if_neg h2, if_neg h3]

/-- The string parser decodes exactly what the `json.dumps` escaper wrote,
leaving the remainder untouched. -/
theorem parseStringBody_escape (s : List Char) :
    ∀ (fuel : Nat) (acc rest : List Char), s.length < fuel →
    parseStringBody fuel (escapeChars s ++ '"' :: rest) acc =
      some (⟨acc.reverse ++ s⟩, rest) := by
  induction s with
  | nil =>
    intro fuel acc rest hf
    cases fuel with
    | zero => omega
    | succ f => simp [escapeChars, parseStringBody]
  | cons c t ih =>
    intro fuel acc rest hf
    cases fuel with
    | zero => omega
    | succ f =>
    have hf' : t.length < f := by
      simp only [List.length_cons] at hf
      omega
    have hvalid := char_valid_nat c
    by_cases h1 : c = '"'
    · subst h1
      rw [show escapeChars ('"' :: t) = '\\' :: '"' :: escapeChars t from by
        simp +decide [escapeChars, escapeChar]]
      rw [List.cons_append, List.cons_append]
      rw [show ∀ l a, parseStringBody (f + 1) ('\\' :: '"' :: l) a
          = parseStringBody f l ('"' :: a) from fun l a => by
        simp +decide [parseStringBody]]
      rw [ih f _ rest hf']
      simp
    · by_cases h2 : c = '\\'
      · subst h2
        rw [show escapeChars ('\\' :: t) = '\\' :: '\\' :: escapeChars t from by
          simp +decide [escapeChars, escapeChar]]
        rw [List.cons_append, List.cons_append]
        rw [show ∀ l a, parseStringBody (f + 1) ('\\' :: '\\' :: l) a
            = parseStringBody f l ('\\' :: a) from fun l a => by
          simp +decide [parseStringBody]]
        rw [ih f _ rest hf']
        simp
      · by_cases h3 : c = '\n'
        · subst h3
          rw [show escapeChars ('\n' :: t) = '\\' :: 'n' :: escapeChars t from by
            simp +decide [escapeChars, escapeChar]]
          rw [List.cons_append, List.cons_append]
          rw [show ∀ l a, parseStringBody (f + 1) ('\\' :: 'n' :: l) a
              = parseStringBody f l ('\n' :: a) from fun l a => by
            simp +decide [parseStringBody]]
          rw [ih f _ rest hf']
          simp
        · by_cases h4 : c = '\x0d'
          · subst h4
            rw [show escapeChars ('\x0d' :: t) = '\\' :: 'r' :: escapeChars t from by
              simp +decide [escapeChars, escapeChar]]
            rw [List.cons_append, List.cons_append]
            rw [show ∀ l a, parseStringBody (f + 1) ('\\' :: 'r' :: l) a
                = parseStringBody f l ('\x0d' :: a) from fun l a => by
              simp +decide [parseStringBody]]
            rw [ih f _ rest hf']
            simp
          · by_cases h5 : c = '\t'
            · subst h5
              rw [show escapeChars ('\t' :: t) = '\\' :: 't' :: escapeChars t from by
                simp +decide [escapeChars, escapeChar]]
              rw [List.cons_append, List.cons_append]
              rw [show ∀ l a, parseStringBody (f + 1) ('\\' :: 't' :: l) a
                  = parseStringBody f l ('\t' :: a) from fun l a => by
                simp +decide [parseStringBody]]
              rw [ih f _ rest hf']
              simp
            · by_cases h6 : c = '\x08'
              · subst h6
                rw [show escapeChars ('\x08' :: t) = '\\' :: 'b' :: escapeChars t from by
                  simp +decide [escapeChars, escapeChar]]
                rw [List.cons_append, List.cons_append]
                rw [show ∀ l a, parseStringBody (f + 1) ('\\' :: 'b' :: l) a
                    = parseStringBody f l ('\x08' :: a) from fun l a => by
                  simp +decide [parseStringBody]]
                rw [ih f _ rest hf']
                simp
              · by_cases h7 : c = '\x0c'
                · subst h7
                  rw [show escapeChars ('\x0c' :: t) = '\\' :: 'f' :: escapeChars t from by
                    simp +decide [escapeChars, escapeChar]]
                  rw [List.cons_append, List.cons_append]
                  rw [show ∀ l a, parseStringBody (f + 1) ('\\' :: 'f' :: l) a
                      = parseStringBody f l ('\x0c' :: a) from fun l a => by
                    simp +decide [parseStringBody]]
                  rw [ih f _ rest hf']
                  simp
                · by_cases h8 : c.toNat < 0x20
                  · -- other control characters: a BMP `\u` escape
                    rw [show escapeChars (c :: t)
                        = '\\' :: 'u' :: (hex4 c.toNat ++ escapeChars t) from by
                      simp only [escapeChars, escapeChar, if_neg h1, if_neg h2, if_neg h3,
                        if_neg h4, if_neg h5, if_neg h6, if_neg h7, if_pos h8, uEscape,
                        List.cons_append]]
                    rw [List.cons_append, List.cons_append, List.append_assoc]
                    rw [parseStringBody_u_bmp f c.toNat (by omega) (by omega),
                      Char.ofNat_toNat, ih f _ rest hf']
                    simp
                  · by_cases h9 : c.toNat < 0x7f
                    · -- printable ASCII: written raw
                      rw [show escapeChars (c :: t) = c :: escapeChars t from by
                        simp only [escapeChars, escapeChar, if_neg h1, if_neg h2, if_neg h3,
                          if_neg h4, if_neg h5, if_neg h6, if_neg h7, if_neg h8, if_pos h9,
                          List.singleton_append]]
                      rw [List.cons_append, parseStringBody_raw f c h1 h2 h8]
                      rw [ih f _ rest hf']
                      simp
                    · by_cases h10 : c.toNat < 0x10000
                      · -- other BMP scalar: a `\u` escape
                        rw [show escapeChars (c :: t)
                            = '\\' :: 'u' :: (hex4 c.toNat ++ escapeChars t) from by
                          simp only [escapeChars, escapeChar, if_neg h1, if_neg h2, if_neg h3,
                            if_neg h4, if_neg h5, if_neg h6, if_neg h7, if_neg h8, if_neg h9,
                            if_pos h10, uEscape, List.cons_append]]
                        rw [List.cons_append, List.cons_append, List.append_assoc]
                        rw [parseStringBody_u_bmp f c.toNat (by omega) (by omega),
                          Char.ofNat_toNat, ih f _ rest hf']
                        simp
                      · -- astral plane: a surrogate pair
                        rw [show escapeChars (c :: t)
                            = '\\' :: 'u' :: (hex4 (0xd800 + (c.toNat - 0x10000) / 0x400) ++
                              ('\\' :: 'u' :: (hex4 (0xdc00 + (c.toNat - 0x10000) % 0x400) ++
                                escapeChars t))) from by
                          simp only [escapeChars, escapeChar, if_neg h1, if_neg h2, if_neg h3,
                            if_neg h4, if_neg h5, if_neg h6, if_neg h7, if_neg h8, if_neg h9,
                            if_neg h10, uEscape, List.cons_append, List.append_assoc]]
                        simp only [List.cons_append, List.append_assoc]
                        rw [parseStringBody_u_pair f c.toNat (by omega) (by omega),
                          Char.ofNat_toNat, ih f _ rest hf']
                        simp

end PediAssist

namespace PediAssist

/-- What may legally follow a printed JSON value inside `json.dumps` output:
nothing, a `,` item separator, or the `\n` of the indentation. -/
def RestOk : List Char → Prop
  | [] => True
  | c :: _ => c = ',' ∨ c = '\n'

/-- A well-behaved numeric literal: it starts with a sign or digit and the
number grammar consumes exactly the literal in any printing context. -/
def NumOk (lit : String) : Prop :=
  (∃ c t, lit.toList = c :: t ∧ (c = '-' ∨ c.isDigit = true)) ∧
  ∀ rest, RestOk rest → parseNumber (lit.toList ++ rest) = some (lit, rest)

/-- Well-formed JSON values: every numeric literal is well behaved. -/
inductive JsonWF : Json → Prop
  | null : JsonWF .null
  | bool (b : Bool) : JsonWF (.bool b)
  | num (lit : String) (h : NumOk lit) : JsonWF (.num lit)
  | str (s : String) : JsonWF (.str s)
  | arr (xs : List Json) (h : ∀ x ∈ xs, JsonWF x) : JsonWF (.arr xs)
  | obj (fs : List (String × Json)) (h : ∀ p ∈ fs, JsonWF p.2) : JsonWF (.obj fs)

mutual

/-- Structural size of a JSON value (drives the parser-fuel bound). -/
def jsize : Json → Nat
  | .null => 1
  | .bool _ => 1
  | .num _ => 1
  | .str _ => 1
  | .arr xs => 1 + jsizeL xs
  | .obj fs => 1 + jsizeF fs

/-- Size of an array item list. -/
def jsizeL : List Json → Nat
  | [] => 1
  | x :: t => 1 + jsize x + jsizeL t

/-- Size of an object field list. -/
def jsizeF : List (String × Json) → Nat
  | [] => 1
  | (_, v) :: t => 1 + jsize v + jsizeF t

end

theorem jsize_pos (v : Json) : 1 ≤ jsize v := by
  cases v <;> simp [jsize]

theorem jsizeL_pos (xs : List Json) : 1 ≤ jsizeL xs := by
  cases xs <;> simp only [jsizeL] <;> omega

theorem jsizeF_pos (fs : List (String × Json)) : 1 ≤ jsizeF fs := by
  cases fs with
  | nil => simp only [jsizeF]; omega
  | cons p t => cases p; simp only [jsizeF]; omega

set_option maxHeartbeats 1000000 in
/-- Escaping a character writes at least one character. -/
theorem escapeChar_length_pos (c : Char) : 1 ≤ (escapeChar c).length := by
  unfold escapeChar
  split_ifs <;> simp [uEscape, hex4]

/-- Escaping never shortens a string. -/
theorem escapeChars_length (s : List Char) : s.length ≤ (escapeChars s).length := by
  induction s with
  | nil => simp [escapeChars]
  | cons c t ih =>
    simp only [escapeChars, List.length_append, List.length_cons]
    have := escapeChar_length_pos c
    omega

/-- The string parser decodes a `json.dumps` string literal. -/
theorem parseStr_dumpsString (s : String) (rest : List Char) :
    parseStr ((dumpsString s).toList ++ rest) = some (s, rest) := by
  have hshape : (dumpsString s).toList ++ rest =
      '"' :: (escapeChars s.toList ++ '"' :: rest) := by
    simp [dumpsString, String.toList, List.cons_append, List.append_assoc]
  rw [hshape]
  show parseStringBody ((escapeChars s.toList ++ '"' :: rest).length + 1)
      (escapeChars s.toList ++ '"' :: rest) [] = some (s, rest)
  rw [parseStringBody_escape s.toList _ [] rest (by
    have := escapeChars_length s.toList
    simp only [List.length_append, List.length_cons]
    omega)]
  simp [String.toList]

end PediAssist

namespace PediAssist

/-- A digit is not JSON whitespace and none of the structural characters. -/
theorem digit_not_special (c : Char) (hd : c.isDigit = true) :
    jsonWs c = false ∧ c ≠ '"' ∧ c ≠ '\x7b' ∧ c ≠ '[' := by
  have h1 : c ≠ ' ' := fun h => by rw [h] at hd; exact absurd hd (by decide)
  have h2 : c ≠ '\t' := fun h => by rw [h] at hd; exact absurd hd (by decide)
  have h3 : c ≠ '\n' := fun h => by rw [h] at hd; exact absurd hd (by decide)
  have h4 : c ≠ '\x0d' := fun h => by rw [h] at hd; exact absurd hd (by decide)
  have h5 : c ≠ '"' := fun h => by rw [h] at hd; exact absurd hd (by decide)
  have h6 : c ≠ '\x7b' := fun h => by rw [h] at hd; exact absurd hd (by decide)
  have h7 : c ≠ '[' := fun h => by rw [h] at hd; exact absurd hd (by decide)
  exact ⟨by simp [jsonWs, h1, h2, h3, h4], h5, h6, h7⟩

/-- The first character printed for a well-formed value is not whitespace and
not a closing bracket. -/
theorem dumpsVal_head (ind : Nat) (v : Json) (hwf : JsonWF v) :
    ∃ c t, (dumpsVal ind v).toList = c :: t ∧ jsonWs c = false ∧ c ≠ ']' ∧ c ≠ '\x7d' := by
  cases hwf with
  | null => exact ⟨'n', _, rfl, by decide, by decide, by decide⟩
  | bool b =>
    cases b with
    | false => exact ⟨'f', _, rfl, by decide, by decide, by decide⟩
    | true => exact ⟨'t', _, rfl, by decide, by decide, by decide⟩
  | num lit h =>
    obtain ⟨⟨c0, t0, hl, hc⟩, -⟩ := h
    refine ⟨c0, t0, by simpa [dumpsVal, String.toList] using hl, ?_, ?_, ?_⟩
    · rcases hc with rfl | hd
      · decide
      · exact (digit_not_special c0 hd).1
    · rcases hc with rfl | hd
      · decide
      · exact fun h => by rw [h] at hd; exact absurd hd (by decide)
    · rcases hc with rfl | hd
      · decide
      · exact fun h => by rw [h] at hd; exact absurd hd (by decide)
  | str s =>
    exact ⟨'"', escapeChars s.data ++ ['"'], rfl, by decide, by decide, by decide⟩
  | arr xs h =>
    cases xs with
    | nil => exact ⟨'[', _, rfl, by decide, by decide, by decide⟩
    | cons x t =>
      exact ⟨'[', '\n' :: ((spacesStr (ind + 2)).data ++
        ((dumpsVal (ind + 2) x).data ++ ((dumpsArrRest (ind + 2) t).data ++
          '\n' :: ((spacesStr ind).data ++ [']'])))),
        by simp [dumpsVal, String.toList], by decide, by decide, by decide⟩
  | obj fs h =>
    cases fs with
    | nil => exact ⟨'\x7b', _, rfl, by decide, by decide, by decide⟩
    | cons p t =>
      cases p with
      | mk k v =>
        exact ⟨'\x7b', '\n' :: ((spacesStr (ind + 2)).data ++
          ((dumpsString k).data ++ ':' :: ' ' :: ((dumpsVal (ind + 2) v).data ++
            ((dumpsObjRest (ind + 2) t).data ++ '\n' :: ((spacesStr ind).data ++ ['\x7d']))))),
          by simp [dumpsVal, String.toList], by decide, by decide, by decide⟩

/-- `parseValue` ignores leading whitespace. -/
theorem parseValue_ws (fuel : Nat) (l1 l2 : List Char) (h : ∀ c ∈ l1, jsonWs c = true) :
    parseValue fuel (l1 ++ l2) = parseValue fuel l2 := by
  cases fuel with
  | zero => rfl
  | succ f =>
    rw [parseValue, parseValue, skipJsonWs_append l1 l2 h]

/-- `parseArrItems` ignores leading whitespace (its first act is `parseValue`). -/
theorem parseArrItems_ws (fuel : Nat) (l1 l2 : List Char) (h : ∀ c ∈ l1, jsonWs c = true) :
    parseArrItems fuel (l1 ++ l2) = parseArrItems fuel l2 := by
  cases fuel with
  | zero => rfl
  | succ f =>
    rw [parseArrItems, parseArrItems, parseValue_ws f l1 l2 h]

end PediAssist

namespace PediAssist

/-- `arrTail` on a list that does not start with `]` parses items. -/
theorem arrTail_cons (p : List Char → Option (List Json × List Char)) (c : Char)
    (t : List Char) (h : c ≠ ']') :
    arrTail p (c :: t) = (p (c :: t)).map fun q => (Json.arr q.1, q.2) := by
  unfold arrTail
  split
  · next t2 heq =>
    exact absurd (List.cons.injEq .. ▸ heq).1 h
  · rfl

/-- `objTail` on a list that does not start with a closing brace parses fields. -/
theorem objTail_cons (p : List Char → Option (List (String × Json) × List Char)) (c : Char)
    (t : List Char) (h : c ≠ '\x7d') :
    objTail p (c :: t) = (p (c :: t)).map fun q => (Json.obj q.1, q.2) := by
  unfold objTail
  split
  · next t2 heq =>
    exact absurd (List.cons.injEq .. ▸ heq).1 h
  · rfl

end PediAssist

namespace PediAssist

/-- Round-trip of `json.dumps`/`json.loads`, by induction on the parser fuel:
printed well-formed values (and item lists) parse back to themselves, leaving
the trailing context untouched. -/
theorem parse_dumps_all : ∀ fuel : Nat,
    (∀ (v : Json) (ind : Nat) (rest : List Char), JsonWF v → RestOk rest →
      jsize v ≤ fuel →
      parseValue fuel ((dumpsVal ind v).toList ++ rest) = some (v, rest)) ∧
    (∀ (x : Json) (xs : List Json) (ind indC : Nat) (rest : List Char),
      (∀ y ∈ x :: xs, JsonWF y) → RestOk rest → jsizeL (x :: xs) ≤ fuel →
      parseArrItems fuel ((dumpsVal ind x).toList ++ ((dumpsArrRest ind xs).toList ++
        '\n' :: ((spacesStr indC).toList ++ ']' :: rest))) = some (x :: xs, rest)) ∧
    (∀ (k : String) (v : Json) (fs : List (String × Json)) (ind indC : Nat)
      (rest : List Char),
      (∀ p ∈ (k, v) :: fs, JsonWF p.2) → RestOk rest → jsizeF ((k, v) :: fs) ≤ fuel →
      parseObjItems fuel ((dumpsString k).toList ++ ':' :: ' ' :: ((dumpsVal ind v).toList ++
        ((dumpsObjRest ind fs).toList ++ '\n' :: ((spacesStr indC).toList ++ '\x7d' :: rest))))
        = some ((k, v) :: fs, rest)) := by
  intro fuel
  induction fuel with
  | zero =>
    refine ⟨?_, ?_, ?_⟩
    · intro v _ _ _ _ hsz
      exact absurd hsz (by have := jsize_pos v; omega)
    · intro x xs _ _ _ _ _ hsz
      exact absurd hsz (by
        have := jsize_pos x
        have := jsizeL_pos xs
        simp only [jsizeL]
        omega)
    · intro k v fs _ _ _ _ _ hsz
      exact absurd hsz (by
        have := jsize_pos v
        have := jsizeF_pos fs
        simp only [jsizeF]
        omega)
  | succ f ih =>
    obtain ⟨Pval, Parr, Pobj⟩ := ih
    refine ⟨?_, ?_, ?_⟩
    · -- values
      intro v ind rest hwf hrest hsz
      cases hwf with
      | null =>
        rw [show (dumpsVal ind .null).toList ++ rest = 'n' :: 'u' :: 'l' :: 'l' :: rest from rfl]
        rw [parseValue]
        simp +decide [skipJsonWs, List.isPrefixOf]
      | bool b =>
        cases b with
        | true =>
          rw [show (dumpsVal ind (.bool true)).toList ++ rest
              = 't' :: 'r' :: 'u' :: 'e' :: rest from rfl]
          rw [parseValue]
          simp +decide [skipJsonWs, List.isPrefixOf]
        | false =>
          rw [show (dumpsVal ind (.bool false)).toList ++ rest
              = 'f' :: 'a' :: 'l' :: 's' :: 'e' :: rest from rfl]
          rw [parseValue]
          simp +decide [skipJsonWs, List.isPrefixOf]
      | num lit hno =>
        obtain ⟨⟨c0, t0, hl, hc⟩, hp⟩ := hno
        have hfacts : jsonWs c0 = false ∧ c0 ≠ '"' ∧ c0 ≠ '\x7b' ∧ c0 ≠ '[' ∧
            c0 ≠ 'n' ∧ c0 ≠ 't' ∧ c0 ≠ 'f' := by
          rcases hc with rfl | hd
          · exact ⟨by decide, by decide, by decide, by decide, by decide, by decide, by decide⟩
          · obtain ⟨hws, h1, h2, h3⟩ := digit_not_special c0 hd
            refine ⟨hws, h1, h2, h3, ?_, ?_, ?_⟩ <;>
              exact fun hEq => by rw [hEq] at hd; exact absurd hd (by decide)
        have hdv : (dumpsVal ind (.num lit)).toList = lit.toList := rfl
        rw [hdv, parseValue]
        have hskip : skipJsonWs (lit.toList ++ rest) = lit.toList ++ rest := by
          rw [hl, List.cons_append, skipJsonWs_cons _ _ hfacts.1]
        rw [hskip, hl, List.cons_append]
        have hn : ('n' == c0) = false := beq_eq_false_iff_ne.mpr (Ne.symm hfacts.2.2.2.2.1)
        have ht : ('t' == c0) = false := beq_eq_false_iff_ne.mpr (Ne.symm hfacts.2.2.2.2.2.1)
        have hf : ('f' == c0) = false := beq_eq_false_iff_ne.mpr (Ne.symm hfacts.2.2.2.2.2.2)
        simp only [if_neg hfacts.2.1, if_neg hfacts.2.2.1, if_neg hfacts.2.2.2.1,
          List.isPrefixOf, hn, ht, hf, Bool.false_and, Bool.if_false_left]
        have hpn : parseNumber (c0 :: (t0 ++ rest)) = some (lit, rest) := by
          rw [← List.cons_append, ← hl]
          exact hp rest hrest
        simp [hpn]
      | str s =>
        rw [show (dumpsVal ind (.str s)).toList ++ rest
            = '"' :: (escapeChars s.toList ++ '"' :: rest) from by
          simp [dumpsVal, dumpsString, String.toList, List.append_assoc]]
        rw [parseValue]
        rw [skipJsonWs_cons _ _ (by decide)]
        simp +decide only []
        rw [parseStringBody_escape s.toList _ [] rest (by
          have := escapeChars_length s.toList
          simp only [List.length_append, List.length_cons]
          omega)]
        simp [String.toList]
      | arr xs hchild =>
        cases xs with
        | nil =>
          rw [show (dumpsVal ind (.arr [])).toList ++ rest = '[' :: ']' :: rest from rfl]
          rw [parseValue]
          simp +decide [skipJsonWs]
          rfl
        | cons x xs =>
          rw [show (dumpsVal ind (.arr (x :: xs))).toList ++ rest
              = '[' :: '\n' :: ((spacesStr (ind + 2)).toList ++ ((dumpsVal (ind + 2) x).toList ++
                ((dumpsArrRest (ind + 2) xs).toList ++
                  '\n' :: ((spacesStr ind).toList ++ ']' :: rest))))
              from by simp [dumpsVal, String.toList, List.append_assoc]]
          rw [parseValue]
          rw [skipJsonWs_cons _ _ (by decide)]
          simp only [if_neg (show ('[' : Char) ≠ '"' from by decide),
            if_neg (show ('[' : Char) ≠ '\x7b' from by decide),
            if_pos (rfl : ('[' : Char) = '[')]
          rw [show skipJsonWs ('\n' :: ((spacesStr (ind + 2)).toList ++
              ((dumpsVal (ind + 2) x).toList ++ ((dumpsArrRest (ind + 2) xs).toList ++
                '\n' :: ((spacesStr ind).toList ++ ']' :: rest)))))
              = skipJsonWs ((dumpsVal (ind + 2) x).toList ++
                ((dumpsArrRest (ind + 2) xs).toList ++
                  '\n' :: ((spacesStr ind).toList ++ ']' :: rest)))
              from skipJsonWs_append ('\n' :: (spacesStr (ind + 2)).toList) _
                (nlIndent_ws (ind + 2))]
          obtain ⟨c0, t0, hl, hws, hne1, hne2⟩ := dumpsVal_head (ind + 2) x (hchild x (by simp))
          rw [hl, List.cons_append, skipJsonWs_cons _ _ hws]
          rw [arrTail_cons _ _ _ hne1]
          rw [show c0 :: (t0 ++ ((dumpsArrRest (ind + 2) xs).toList ++
              '\n' :: ((spacesStr ind).toList ++ ']' :: rest)))
              = (c0 :: t0) ++ ((dumpsArrRest (ind + 2) xs).toList ++
                '\n' :: ((spacesStr ind).toList ++ ']' :: rest)) from rfl]
          rw [← hl]
          rw [Parr x xs (ind + 2) ind rest hchild hrest (by
            simp only [jsize] at hsz
            omega)]
          rfl
      | obj fs hchild =>
        cases fs with
        | nil =>
          rw [show (dumpsVal ind (.obj [])).toList ++ rest = '\x7b' :: '\x7d' :: rest from rfl]
          rw [parseValue]
          simp +decide [skipJsonWs]
          rfl
        | cons p fs =>
          obtain ⟨k, v⟩ := p
          rw [show (dumpsVal ind (.obj ((k, v) :: fs))).toList ++ rest
              = '\x7b' :: '\n' :: ((spacesStr (ind + 2)).toList ++
                ((dumpsString k).toList ++ ':' :: ' ' :: ((dumpsVal (ind + 2) v).toList ++
                  ((dumpsObjRest (ind + 2) fs).toList ++
                    '\n' :: ((spacesStr ind).toList ++ '\x7d' :: rest)))))
              from by simp [dumpsVal, String.toList, List.append_assoc]]
          rw [parseValue]
          rw [skipJsonWs_cons _ _ (by decide)]
          simp only [if_neg (show ('\x7b' : Char) ≠ '"' from by decide),
            if_pos (rfl : ('\x7b' : Char) = '\x7b')]
          rw [show skipJsonWs ('\n' :: ((spacesStr (ind + 2)).toList ++
              ((dumpsString k).toList ++ ':' :: ' ' :: ((dumpsVal (ind + 2) v).toList ++
                ((dumpsObjRest (ind + 2) fs).toList ++
                  '\n' :: ((spacesStr ind).toList ++ '\x7d' :: rest))))))
              = skipJsonWs ((dumpsString k).toList ++ ':' :: ' ' ::
                ((dumpsVal (ind + 2) v).toList ++ ((dumpsObjRest (ind + 2) fs).toList ++
                  '\n' :: ((spacesStr ind).toList ++ '\x7d' :: rest))))
              from skipJsonWs_append ('\n' :: (spacesStr (ind + 2)).toList) _
                (nlIndent_ws (ind + 2))]
          rw [show ((dumpsString k).toList ++ ':' :: ' ' ::
              ((dumpsVal (ind + 2) v).toList ++ ((dumpsObjRest (ind + 2) fs).toList ++
                '\n' :: ((spacesStr ind).toList ++ '\x7d' :: rest))))
              = '"' :: ((escapeChars k.toList ++ ['"']) ++ ':' :: ' ' ::
                ((dumpsVal (ind + 2) v).toList ++ ((dumpsObjRest (ind + 2) fs).toList ++
                  '\n' :: ((spacesStr ind).toList ++ '\x7d' :: rest)))) from rfl]
          rw [skipJsonWs_cons _ _ (by decide)]
          rw [objTail_cons _ _ _ (by decide)]
          rw [show '"' :: ((escapeChars k.toList ++ ['"']) ++ ':' :: ' ' ::
              ((dumpsVal (ind + 2) v).toList ++ ((dumpsObjRest (ind + 2) fs).toList ++
                '\n' :: ((spacesStr ind).toList ++ '\x7d' :: rest))))
              = (dumpsString k).toList ++ ':' :: ' ' ::
                ((dumpsVal (ind + 2) v).toList ++ ((dumpsObjRest (ind + 2) fs).toList ++
                  '\n' :: ((spacesStr ind).toList ++ '\x7d' :: rest))) from rfl]
          rw [Pobj k v fs (ind + 2) ind rest hchild hrest (by
            simp only [jsize] at hsz
            omega)]
          rfl
    · -- array items
      intro x xs ind indC rest hwf hrest hsz
      rw [parseArrItems]
      have hr1 : RestOk ((dumpsArrRest ind xs).toList ++
          '\n' :: ((spacesStr indC).toList ++ ']' :: rest)) := by
        cases xs with
        | nil => simp [dumpsArrRest, RestOk, String.toList]
        | cons y ys => simp [dumpsArrRest, RestOk, String.toList]
      rw [Pval x ind _ (hwf x (by simp)) hr1 (by
        simp only [jsizeL] at hsz
        have := jsizeL_pos xs
        omega)]
      cases xs with
      | nil =>
        rw [show (dumpsArrRest ind ([] : List Json)).toList = [] from rfl]
        simp only [List.nil_append]
        rw [show ('\n' :: ((spacesStr indC).toList ++ ']' :: rest))
            = ('\n' :: (spacesStr indC).toList) ++ (']' :: rest) from rfl]
        simp only [Option.pure_def, Option.bind_eq_bind, Option.some_bind]
        rw [skipJsonWs_append _ _ (nlIndent_ws indC), skipJsonWs_cons _ _ (by decide)]
        rfl
      | cons y ys =>
        rw [show (dumpsArrRest ind (y :: ys)).toList
            = ',' :: '\n' :: ((spacesStr ind).toList ++ ((dumpsVal ind y).toList ++
                (dumpsArrRest ind ys).toList)) from by
          simp [dumpsArrRest, String.toList, List.append_assoc]]
        simp only [Option.pure_def, Option.bind_eq_bind, Option.some_bind,
          List.cons_append, List.append_assoc]
        rw [skipJsonWs_cons _ _ (by decide)]
        have hitems : parseArrItems f ('\n' :: ((spacesStr ind).toList ++
            ((dumpsVal ind y).toList ++ ((dumpsArrRest ind ys).toList ++
              '\n' :: ((spacesStr indC).toList ++ ']' :: rest))))) = some (y :: ys, rest) := by
          rw [show ('\n' :: ((spacesStr ind).toList ++
              ((dumpsVal ind y).toList ++ ((dumpsArrRest ind ys).toList ++
                '\n' :: ((spacesStr indC).toList ++ ']' :: rest)))))
              = ('\n' :: (spacesStr ind).toList) ++ ((dumpsVal ind y).toList ++
                ((dumpsArrRest ind ys).toList ++
                  '\n' :: ((spacesStr indC).toList ++ ']' :: rest))) from rfl]
          rw [parseArrItems_ws _ _ _ (nlIndent_ws ind)]
          exact Parr y ys ind indC rest (fun z hz => hwf z (by simp [hz])) hrest (by
            simp only [jsizeL] at hsz ⊢
            omega)
        simp [List.append_assoc]
        exact hitems
    · -- object fields
      intro k v fs ind indC rest hwf hrest hsz
      rw [parseObjItems]
      rw [parseStr_dumpsString k _]
      simp only [Option.pure_def, Option.bind_eq_bind, Option.some_bind]
      rw [skipJsonWs_cons _ _ (by decide)]
      have hr1 : RestOk ((dumpsObjRest ind fs).toList ++
          '\n' :: ((spacesStr indC).toList ++ '\x7d' :: rest)) := by
        cases fs with
        | nil => simp [dumpsObjRest, RestOk, String.toList]
        | cons p fs2 => cases p; simp [dumpsObjRest, RestOk, String.toList]
      have hval : parseValue f (' ' :: ((dumpsVal ind v).toList ++
          ((dumpsObjRest ind fs).toList ++
            '\n' :: ((spacesStr indC).toList ++ '\x7d' :: rest))))
          = some (v, (dumpsObjRest ind fs).toList ++
            '\n' :: ((spacesStr indC).toList ++ '\x7d' :: rest)) := by
        rw [show (' ' :: ((dumpsVal ind v).toList ++
            ((dumpsObjRest ind fs).toList ++
              '\n' :: ((spacesStr indC).toList ++ '\x7d' :: rest))))
            = [' '] ++ ((dumpsVal ind v).toList ++
              ((dumpsObjRest ind fs).toList ++
                '\n' :: ((spacesStr indC).toList ++ '\x7d' :: rest)))
            from rfl]
        rw [parseValue_ws _ _ _ (by intro c hc; simp at hc; simp [hc, jsonWs])]
        exact Pval v ind _ (hwf (k, v) (by simp)) hr1 (by
          have := jsizeF_pos fs
          simp only [jsizeF] at hsz
          omega)
      simp only [hval, Option.some_bind]
      cases fs with
      | nil =>
        rw [show (dumpsObjRest ind ([] : List (String × Json))).toList = [] from rfl]
        simp only [List.nil_append, Option.some_bind]
        rw [show ('\n' :: ((spacesStr indC).toList ++ '\x7d' :: rest))
            = ('\n' :: (spacesStr indC).toList) ++ ('\x7d' :: rest) from rfl]
        rw [skipJsonWs_append _ _ (nlIndent_ws indC), skipJsonWs_cons _ _ (by decide)]
        rfl
      | cons p fs2 =>
        obtain ⟨k2, v2⟩ := p
        rw [show (dumpsObjRest ind ((k2, v2) :: fs2)).toList
            = ',' :: '\n' :: ((spacesStr ind).toList ++ ((dumpsString k2).toList ++
                ':' :: ' ' :: ((dumpsVal ind v2).toList ++ (dumpsObjRest ind fs2).toList)))
            from by simp [dumpsObjRest, String.toList, List.append_assoc]]
        simp only [Option.some_bind, List.cons_append, List.append_assoc]
        rw [skipJsonWs_cons _ _ (by decide)]
        have hskip2 : skipJsonWs ('\n' :: ((spacesStr ind).toList ++
            ((dumpsString k2).toList ++ ':' :: ' ' :: ((dumpsVal ind v2).toList ++
              ((dumpsObjRest ind fs2).toList ++
                '\n' :: ((spacesStr indC).toList ++ '\x7d' :: rest))))))
            = (dumpsString k2).toList ++ ':' :: ' ' :: ((dumpsVal ind v2).toList ++
                ((dumpsObjRest ind fs2).toList ++
                  '\n' :: ((spacesStr indC).toList ++ '\x7d' :: rest))) := by
          rw [show ('\n' :: ((spacesStr ind).toList ++
              ((dumpsString k2).toList ++ ':' :: ' ' :: ((dumpsVal ind v2).toList ++
                ((dumpsObjRest ind fs2).toList ++
                  '\n' :: ((spacesStr indC).toList ++ '\x7d' :: rest))))))
              = ('\n' :: (spacesStr ind).toList) ++
                ((dumpsString k2).toList ++ ':' :: ' ' :: ((dumpsVal ind v2).toList ++
                  ((dumpsObjRest ind fs2).toList ++
                    '\n' :: ((spacesStr indC).toList ++ '\x7d' :: rest)))) from rfl]
          rw [skipJsonWs_append _ _ (nlIndent_ws ind)]
          rw [show ((dumpsString k2).toList ++ ':' :: ' ' :: ((dumpsVal ind v2).toList ++
              ((dumpsObjRest ind fs2).toList ++
                '\n' :: ((spacesStr indC).toList ++ '\x7d' :: rest))))
              = '"' :: ((escapeChars k2.toList ++ ['"']) ++ ':' :: ' ' ::
                ((dumpsVal ind v2).toList ++ ((dumpsObjRest ind fs2).toList ++
                  '\n' :: ((spacesStr indC).toList ++ '\x7d' :: rest)))) from rfl]
          rw [skipJsonWs_cons _ _ (by decide)]
        simp only [hskip2]
        rw [Pobj k2 v2 fs2 ind indC rest (fun p hp => hwf p (by simp [hp])) hrest (by
          simp only [jsizeF] at hsz ⊢
          omega)]
        rfl

end PediAssist

namespace PediAssist

theorem spacesStr_length (n : Nat) : (spacesStr n).toList.length = n := by
  simp [spacesStr, String.toList]

/-- The structural size of a well-formed value is bounded by the length of
its printed form (so `json.loads`'s fuel, the input length, suffices). -/
theorem jsize_le_dumps : ∀ n : Nat,
    (∀ v : Json, jsize v ≤ n → ∀ ind, JsonWF v →
      jsize v ≤ (dumpsVal ind v).toList.length) ∧
    (∀ xs : List Json, jsizeL xs ≤ n → ∀ ind, (∀ x ∈ xs, JsonWF x) →
      jsizeL xs ≤ (dumpsArrRest ind xs).toList.length + 1) ∧
    (∀ fs : List (String × Json), jsizeF fs ≤ n → ∀ ind, (∀ p ∈ fs, JsonWF p.2) →
      jsizeF fs ≤ (dumpsObjRest ind fs).toList.length + 1) := by
  intro n
  induction n with
  | zero =>
    refine ⟨?_, ?_, ?_⟩
    · intro v hsz
      exact absurd hsz (by have := jsize_pos v; omega)
    · intro xs hsz
      exact absurd hsz (by have := jsizeL_pos xs; omega)
    · intro fs hsz
      exact absurd hsz (by have := jsizeF_pos fs; omega)
  | succ n ih =>
    obtain ⟨ihV, ihA, ihO⟩ := ih
    refine ⟨?_, ?_, ?_⟩
    · intro v hsz ind hwf
      cases hwf with
      | null => simp [jsize, dumpsVal, String.toList]
      | bool b => cases b <;> simp [jsize, dumpsVal, String.toList]
      | num lit hno =>
        obtain ⟨⟨c0, t0, hl, -⟩, -⟩ := hno
        have hlen : (dumpsVal ind (.num lit)).toList.length = t0.length + 1 := by
          rw [show (dumpsVal ind (.num lit)).toList = c0 :: t0 from hl]
          simp
        simp only [jsize]
        omega
      | str s =>
        have hshape : (dumpsVal ind (.str s)).toList
            = '"' :: (escapeChars s.toList ++ ['"']) := rfl
        rw [hshape]
        simp [jsize]
      | arr xs hchild =>
        cases xs with
        | nil => simp [jsize, jsizeL, dumpsVal, String.toList]
        | cons x t =>
          have h1 : jsize x ≤ n := by
            simp only [jsize, jsizeL] at hsz
            have := jsizeL_pos t
            omega
          have h2 : jsizeL t ≤ n := by
            simp only [jsize, jsizeL] at hsz
            have := jsize_pos x
            omega
          have hx := ihV x h1 (ind + 2) (hchild x (by simp))
          have ht := ihA t h2 (ind + 2) (fun y hy => hchild y (by simp [hy]))
          have hshape : (dumpsVal ind (.arr (x :: t))).toList
              = '[' :: '\n' :: ((spacesStr (ind + 2)).toList ++ ((dumpsVal (ind + 2) x).toList ++
                ((dumpsArrRest (ind + 2) t).toList ++
                  '\n' :: ((spacesStr ind).toList ++ [']'])))) := by
            simp [dumpsVal, String.toList, List.append_assoc]
          rw [hshape]
          simp only [jsize, jsizeL, List.length_cons, List.length_append, spacesStr_length] at *
          omega
      | obj fs hchild =>
        cases fs with
        | nil => simp [jsize, jsizeF, dumpsVal, String.toList]
        | cons p t =>
          obtain ⟨k, v⟩ := p
          have h1 : jsize v ≤ n := by
            simp only [jsize, jsizeF] at hsz
            have := jsizeF_pos t
            omega
          have h2 : jsizeF t ≤ n := by
            simp only [jsize, jsizeF] at hsz
            have := jsize_pos v
            omega
          have hv := ihV v h1 (ind + 2) (hchild (k, v) (by simp))
          have ht := ihO t h2 (ind + 2) (fun q hq => hchild q (by simp [hq]))
          have hshape : (dumpsVal ind (.obj ((k, v) :: t))).toList
              = '\x7b' :: '\n' :: ((spacesStr (ind + 2)).toList ++
                ((dumpsString k).toList ++ ':' :: ' ' :: ((dumpsVal (ind + 2) v).toList ++
                  ((dumpsObjRest (ind + 2) t).toList ++
                    '\n' :: ((spacesStr ind).toList ++ ['\x7d']))))) := by
            simp [dumpsVal, String.toList, List.append_assoc]
          rw [hshape]
          simp only [jsize, jsizeF, List.length_cons, List.length_append, spacesStr_length] at *
          omega
    · intro xs hsz ind hwf
      cases xs with
      | nil => simp [jsizeL, dumpsArrRest, String.toList]
      | cons x t =>
        have h1 : jsize x ≤ n := by
          simp only [jsizeL] at hsz
          have := jsizeL_pos t
          omega
        have h2 : jsizeL t ≤ n := by
          simp only [jsizeL] at hsz
          have := jsize_pos x
          omega
        have hx := ihV x h1 ind (hwf x (by simp))
        have ht := ihA t h2 ind (fun y hy => hwf y (by simp [hy]))
        have hshape : (dumpsArrRest ind (x :: t)).toList
            = ',' :: '\n' :: ((spacesStr ind).toList ++ ((dumpsVal ind x).toList ++
              (dumpsArrRest ind t).toList)) := by
          simp [dumpsArrRest, String.toList, List.append_assoc]
        rw [hshape]
        simp only [jsizeL, List.length_cons, List.length_append, spacesStr_length] at *
        omega
    · intro fs hsz ind hwf
      cases fs with
      | nil => simp [jsizeF, dumpsObjRest, String.toList]
      | cons p t =>
        obtain ⟨k, v⟩ := p
        have h1 : jsize v ≤ n := by
          simp only [jsizeF] at hsz
          have := jsizeF_pos t
          omega
        have h2 : jsizeF t ≤ n := by
          simp only [jsizeF] at hsz
          have := jsize_pos v
          omega
        have hv := ihV v h1 ind (hwf (k, v) (by simp))
        have ht := ihO t h2 ind (fun q hq => hwf q (by simp [hq]))
        have hshape : (dumpsObjRest ind ((k, v) :: t)).toList
            = ',' :: '\n' :: ((spacesStr ind).toList ++ ((dumpsString k).toList ++
              ':' :: ' ' :: ((dumpsVal ind v).toList ++ (dumpsObjRest ind t).toList))) := by
          simp [dumpsObjRest, String.toList, List.append_assoc]
        rw [hshape]
        simp only [jsizeF, List.length_cons, List.length_append, spacesStr_length] at *
        omega

/-- `json.loads` inverts `json.dumps` on well-formed values. -/
theorem jsonLoads_dumps (v : Json) (h : JsonWF v) : jsonLoads (jsonDumps v) = some v := by
  have hlen : jsize v ≤ (jsonDumps v).length + 1 := by
    have := (jsize_le_dumps (jsize v)).1 v le_rfl 0 h
    have hll : (jsonDumps v).length = (dumpsVal 0 v).toList.length := rfl
    omega
  have hmain := (parse_dumps_all ((jsonDumps v).length + 1)).1 v 0 [] h trivial hlen
  unfold jsonLoads
  rw [show (jsonDumps v).toList = (dumpsVal 0 v).toList ++ [] from by
    simp [jsonDumps]]
  rw [show (jsonDumps v).length + 1 = (jsonDumps v).length + 1 from rfl] at hmain
  rw [hmain]
  rfl

end PediAssist

namespace PediAssist

/-! ## `client.py` — JSON expectation, extraction and fallback -/

/-- `_is_json_response_expected`. -/
def isJsonResponseExpected (prompt : String) : Bool :=
  ["json", "structured", "format", "template"].any
    (fun ind => strContains (lowerStr prompt) ind)

/-- One greedy match of `\x7b[^\x7b\x7d]*(?:\x7b[^\x7b\x7d]*\x7d[^\x7b\x7d]*)*\x7d`
(or the bracket analogue) at the current position; the pattern admits no
productive backtracking, so the greedy scan is exact.  Returns the number of
characters consumed. -/
def matchNestedAt (openC closeC : Char) : Nat → List Char → Option Nat
  | _, [] => none
  | fuel, c :: rest =>
    if c = openC then
      let n1 := (rest.takeWhile fun x => x ≠ openC && x ≠ closeC).length
      matchNestedGroups openC closeC fuel (rest.drop n1) (1 + n1)
    else none
where
  /-- After the leading run: consume `(open run close run)*` then `close`. -/
  matchNestedGroups (openC closeC : Char) : Nat → List Char → Nat → Option Nat
    | 0, _, _ => none
    | _ + 1, [], _ => none
    | fuel + 1, c :: cur, acc =>
      if c = closeC then some (acc + 1)
      else if c = openC then
        let n2 := (cur.takeWhile fun x => x ≠ openC && x ≠ closeC).length
        match cur.drop n2 with
        | c2 :: r3 =>
          if c2 = closeC then
            let n3 := (r3.takeWhile fun x => x ≠ openC && x ≠ closeC).length
            matchNestedGroups openC closeC fuel (r3.drop n3) (acc + 1 + n2 + 1 + n3)
          else none
        | [] => none
      else none

/-- `re.findall` of the nested-brace/bracket pattern: non-overlapping
leftmost matches. -/
def nestedFindall (openC closeC : Char) : Nat → List Char → List String
  | 0, _ => []
  | _ + 1, [] => []
  | fuel + 1, c :: rest =>
    match matchNestedAt openC closeC (fuel + 1) (c :: rest) with
    | some n => (⟨(c :: rest).take n⟩ : String) :: nestedFindall openC closeC fuel ((c :: rest).drop n)
    | none => nestedFindall openC closeC fuel rest

/-- All candidates of the brace pattern in `text`. -/
def braceCandidates (text : String) : List String :=
  nestedFindall '\x7b' '\x7d' (text.length + 1) text.toList

/-- All candidates of the bracket pattern in `text`. -/
def bracketCandidates (text : String) : List String :=
  nestedFindall '[' ']' (text.length + 1) text.toList

/-- Index just after the first occurrence of `needle`, if any. -/
def findAfter (hay needle : List Char) : Option (List Char) :=
  (findSubL hay needle).map fun i => hay.drop (i + needle.length)

/-- Fenced-block candidates: the lazy `pat\s*([\s\S]*?)\s*```' group equals
the text between the opening tag and the next ` ``` `, stripped (the client
additionally strips each candidate, so this is exact for its use). -/
def fenceCandidates (openTag : String) : Nat → List Char → List String
  | 0, _ => []
  | fuel + 1, cs =>
    match findAfter cs openTag.toList with
    | none => []
    | some afterOpen =>
      match findSubL afterOpen "```".toList with
      | none => []
      | some i =>
        stripStr ⟨afterOpen.take i⟩ ::
          fenceCandidates openTag fuel (afterOpen.drop (i + 3))

/-- First candidate in the list accepted by `json.loads`. -/
def firstParsable : List String → Option String
  | [] => none
  | c :: t => if (jsonLoads c).isSome then some c else firstParsable t

/-- `_extract_json_from_text`. -/
def extractJsonFromText (text : String) : Option String :=
  let text := stripStr text
  match firstParsable (braceCandidates text) with
  | some m => some m
  | none =>
  match firstParsable (bracketCandidates text) with
  | some m => some m
  | none =>
  match firstParsable (fenceCandidates "```json" (text.length + 1) text.toList) with
  | some m => some m
  | none =>
  match firstParsable (fenceCandidates "```" (text.length + 1) text.toList) with
  | some m => some m
  | none =>
  let cleaned := stripStr text
  if (jsonLoads cleaned).isSome then some cleaned
  else
    match strFind text "\x7b", (findSubL text.toList.reverse ['\x7d']).map
        (fun j => text.length - 1 - j) with
    | some st, some en =>
      if st < en then
        let potential : String := ⟨(text.toList.drop st).take (en + 1 - st)⟩
        if (jsonLoads potential).isSome then some potential else none
      else none
    | _, _ => none

end PediAssist

example : PediAssist.extractJsonFromText "junk \x7b\"a\": 1\x7d tail" =
    some "\x7b\"a\": 1\x7d" := by rfl
example : PediAssist.extractJsonFromText "no json here" = none := by rfl
example : PediAssist.extractJsonFromText "```json\n[1, 2]\n``` rest" = some "[1, 2]" := by rfl
example : PediAssist.extractJsonFromText "take \x7bbad\x7d then \x7b\"b\":[2]\x7d" =
    some "\x7b\"b\":[2]\x7d" := by rfl

namespace PediAssist

/-- `re` whitespace class `\s` (ASCII). -/
def reIsSpace (c : Char) : Bool :=
  c = ' ' || c = '\t' || c = '\n' || c = '\x0d' || c = '\x0b' || c = '\x0c'

/-- Rest of the line from the current position (`[^\n]+`, greedy). -/
def takeLine (cs : List Char) : List Char :=
  cs.takeWhile (· ≠ '\n')

/-- The capture of `re.search(r'primary diagnosis[:\s]*([^\n]+)', s, re.IGNORECASE)`:
after the literal, the greedy `[:\s]*` run is followed by the line capture,
backtracking into the run when it reaches the end of the text. -/
def scanPrimaryDiagnosis : Nat → List Char → Option String
  | 0, _ => none
  | fuel + 1, cs =>
    let lit := "primary diagnosis".toList
    if (lit.map Char.toLower).isPrefixOf (cs.map Char.toLower) then
      let after := cs.drop lit.length
      let run := after.takeWhile fun c => c = ':' || reIsSpace c
      let tail := after.drop run.length
      match tail with
      | _ :: _ => some ⟨takeLine tail⟩
      | [] =>
        -- the run reached the end: backtrack to its last non-newline character
        match (run.reverse.dropWhile (· = '\n')) with
        | [] =>
          match cs with
          | [] => none
          | _ :: cs' => scanPrimaryDiagnosis fuel cs'
        | stuck =>
          some ⟨takeLine (stuck.reverse)⟩
    else
      match cs with
      | [] => none
      | _ :: cs' => scanPrimaryDiagnosis fuel cs'

/-- `diagnosis_match.group(1)` of `_create_fallback_json_response`. -/
def primaryDiagnosisCapture (s : String) : Option String :=
  scanPrimaryDiagnosis (s.length + 1) s.toList

/-- One match attempt of the medication pattern
`(\w+)\s+(\d+[-\s]\d+\s*mg/kg|\d+\s*mg|\d+[-\s]\d+\s*ml)` at the current
position.  Returns the two captures and the total consumption. -/
def matchMedAt (cs : List Char) : Option (String × String × Nat) :=
  let w := cs.takeWhile isWordChar
  if w.isEmpty then none
  else
    let afterW := cs.drop w.length
    let sp := afterW.takeWhile reIsSpace
    if sp.isEmpty then none
    else
      let d := afterW.drop sp.length
      (matchDoseAlt d).map fun (dose, n) =>
        ((⟨w⟩ : String), dose, w.length + sp.length + n)
where
  /-- The three dose alternatives, in source order. -/
  matchDoseAlt (d : List Char) : Option (String × Nat) :=
    let d1 := d.takeWhile Char.isDigit
    if d1.isEmpty then none
    else
      let r1 := d.drop d1.length
      -- alternative 1: `\d+[-\s]\d+\s*mg/kg`
      let alt1 :=
        match r1 with
        | sep :: r2 =>
          if sep = '-' || reIsSpace sep then
            let d2 := r2.takeWhile Char.isDigit
            if d2.isEmpty then none
            else
              let r3 := r2.drop d2.length
              let ws := r3.takeWhile reIsSpace
              let r4 := r3.drop ws.length
              if ("mg/kg".toList).isPrefixOf (r4.map Char.toLower) then
                some ((⟨d1 ++ sep :: (d2 ++ ws ++ r4.take 5)⟩ : String),
                  d1.length + 1 + d2.length + ws.length + 5)
              else none
          else none
        | [] => none
      match alt1 with
      | some res => some res
      | none =>
        -- alternative 2: `\d+\s*mg`
        let ws := r1.takeWhile reIsSpace
        let r2 := r1.drop ws.length
        if ("mg".toList).isPrefixOf (r2.map Char.toLower) then
          some ((⟨d1 ++ ws ++ r2.take 2⟩ : String), d1.length + ws.length + 2)
        else
          -- alternative 3: `\d+[-\s]\d+\s*ml`
          match r1 with
          | sep :: r3 =>
            if sep = '-' || reIsSpace sep then
              let d2 := r3.takeWhile Char.isDigit
              if d2.isEmpty then none
              else
                let r4 := r3.drop d2.length
                let ws2 := r4.takeWhile reIsSpace
                let r5 := r4.drop ws2.length
                if ("ml".toList).isPrefixOf (r5.map Char.toLower) then
                  some ((⟨d1 ++ sep :: (d2 ++ ws2 ++ r5.take 2)⟩ : String),
                    d1.length + 1 + d2.length + ws2.length + 2)
                else none
            else none
          | [] => none

/-- `re.findall` of the medication pattern. -/
def medFindallAux : Nat → List Char → List (String × String)
  | 0, _ => []
  | _ + 1, [] => []
  | fuel + 1, c :: rest =>
    match matchMedAt (c :: rest) with
    | some (name, dose, n) =>
      (name, dose) :: medFindallAux fuel ((c :: rest).drop (max n 1))
    | none => medFindallAux fuel rest

/-- All `(name, dose)` captures of the medication pattern. -/
def medFindall (s : String) : List (String × String) :=
  medFindallAux (s.length + 1) s.toList

/-- One medication entry of the fallback payload. -/
def medEntry (p : String × String) : Json :=
  .obj [("name", .str p.1), ("dose", .str p.2), ("route", .str "oral"),
    ("duration", .str "as needed"),
    ("notes", .str "Verify dosing with current protocols")]

/-- Python `s[:500]` then the `+ "..."` of the fallback. -/
def truncatedEducation (s : String) : String :=
  if 500 < s.length then (⟨s.toList.take 500⟩ : String) ++ "..." else s

/-- The `fallback_response` dictionary of `_create_fallback_json_response`,
as a JSON value. -/
def fallbackValue (originalContent : String) : Json :=
  .obj
    [ ("primary_diagnosis", .str
        (match primaryDiagnosisCapture originalContent with
         | some g => stripStr g
         | none => "unspecified condition")),
      ("secondary_diagnoses", .arr []),
      ("icd10_codes", .arr [.str "R50.9"]),
      ("urgency_level", .str "routine"),
      ("confidence_score", .num "0.5"),
      ("treatment_summary", .str "Clinical guidance provided in text format"),
      ("medications", .arr ((medFindall originalContent).map medEntry)),
      ("treatment_steps", .arr [.obj
        [("step", .num "1"),
         ("action", .str "Review clinical guidelines for current condition"),
         ("priority", .str "immediate")]]),
      ("monitoring", .arr [.str "Monitor patient condition closely"]),
      ("red_flags", .arr [.str "Worsening symptoms", .str "New concerning signs"]),
      ("follow_up", .str "Follow up as clinically indicated"),
      ("patient_education", .str (truncatedEducation originalContent)),
      ("when_to_refer", .str "Refer if condition worsens or does not improve"),
      ("safety_alerts", .arr [.str "Always verify dosing and contraindications"]) ]

/-- `_create_fallback_json_response` (its return value, a JSON string). -/
def createFallbackJsonResponse (originalContent : String) : String :=
  jsonDumps (fallbackValue originalContent)

end PediAssist

namespace PediAssist

/-- The literal `1` is a well-behaved JSON number. -/
theorem numOk_one : NumOk "1" := by
  constructor
  · exact ⟨'1', [], rfl, Or.inr (by decide)⟩
  · intro rest hrest
    cases rest with
    | nil => rfl
    | cons c t =>
      rcases hrest with rfl | rfl <;> rfl

/-- The literal `0.5` is a well-behaved JSON number. -/
theorem numOk_half : NumOk "0.5" := by
  constructor
  · exact ⟨'0', ['.', '5'], rfl, Or.inr (by decide)⟩
  · intro rest hrest
    cases rest with
    | nil => rfl
    | cons c t =>
      rcases hrest with rfl | rfl <;> rfl

/-- The synthesized fallback payload is well formed, whatever the raw text. -/
theorem fallbackValue_wf (s : String) : JsonWF (fallbackValue s) := by
  refine JsonWF.obj _ ?_
  intro p hp
  simp only [fallbackValue, List.mem_cons, List.not_mem_nil, or_false] at hp
  rcases hp with rfl | rfl | rfl | rfl | rfl | rfl | rfl | rfl | rfl | rfl | rfl | rfl | rfl | rfl
  · exact JsonWF.str _
  · exact JsonWF.arr _ (by intro x hx; simp at hx)
  · refine JsonWF.arr _ ?_
    intro x hx
    simp only [List.mem_cons, List.not_mem_nil, or_false] at hx
    subst hx
    exact JsonWF.str _
  · exact JsonWF.str _
  · exact JsonWF.num _ numOk_half
  · exact JsonWF.str _
  · refine JsonWF.arr _ ?_
    intro x hx
    simp only [List.mem_map] at hx
    obtain ⟨m, -, rfl⟩ := hx
    refine JsonWF.obj _ ?_
    intro q hq
    simp only [medEntry, List.mem_cons, List.not_mem_nil, or_false] at hq
    rcases hq with rfl | rfl | rfl | rfl | rfl <;> exact JsonWF.str _
  · refine JsonWF.arr _ ?_
    intro x hx
    simp only [List.mem_cons, List.not_mem_nil, or_false] at hx
    subst hx
    refine JsonWF.obj _ ?_
    intro q hq
    simp only [List.mem_cons, List.not_mem_nil, or_false] at hq
    rcases hq with rfl | rfl | rfl
    · exact JsonWF.num _ numOk_one
    · exact JsonWF.str _
    · exact JsonWF.str _
  · refine JsonWF.arr _ ?_
    intro x hx
    simp only [List.mem_cons, List.not_mem_nil, or_false] at hx
    subst hx
    exact JsonWF.str _
  · refine JsonWF.arr _ ?_
    intro x hx
    simp only [List.mem_cons, List.not_mem_nil, or_false] at hx
    rcases hx with rfl | rfl <;> exact JsonWF.str _
  · exact JsonWF.str _
  · exact JsonWF.str _
  · exact JsonWF.str _
  · refine JsonWF.arr _ ?_
    intro x hx
    simp only [List.mem_cons, List.not_mem_nil, or_false] at hx
    subst hx
    exact JsonWF.str _

/-- The synthesized fallback always parses back as JSON: the total-function
guarantee of the normalizer's last resort. -/
theorem fallback_parses (s : String) :
    jsonLoads (createFallbackJsonResponse s) = some (fallbackValue s) :=
  jsonLoads_dumps _ (fallbackValue_wf s)

end PediAssist

namespace PediAssist

/-! ## `prompts.py` — `PromptEngine` (the templates used by the treatment
flow, rendered exactly as `str.format` does; ages are rendered via `str`) -/

/-- `MASTER_PROMPT_TEMPLATE.format(...)` (the rendered master prompt). -/
def masterPromptRendered (patientAge diagnosis severityLevel additionalContext : String) :
    String :=

    "\nYou are PediAssist, an AI assistant specialized in pediatric healthcare. Your role is to provide evidence-based clinical guidance for pediatric conditions while maintaining the highest standards of safety and accuracy.\n\n## Core Competencies\n- Expert knowledge across all pediatric subspecialties\n- Evidence-based treatment recommendations\n- Age-appropriate dosing calculations\n- Patient communication in layman\u0027s terms\n- Recognition of when specialist referral is needed\n\n## Response Requirements\n\n### 1. Safety First\n- Always include appropriate safety warnings\n- Specify contraindications and red flags\n- Clearly state when immediate medical attention is required\n- Never provide information that could delay emergency care\n\n### 2. Evidence-Based Practice\n- Base recommendations on established guidelines (AAP, CDC, WHO)\n- Cite evidence levels when applicable\n- Acknowledge limitations and areas of uncertainty\n- Distinguish between established practice and emerging evidence\n\n### 3. Practical Applicability\n- Provide actionable, step-by-step guidance\n- Include specific dosing when appropriate\n- Consider real-world constraints (availability, cost, compliance)\n- Address common clinical scenarios and variations\n\n### 4. Communication Excellence\n- Use clear, professional language\n- Structure responses for easy scanning\n- Include both clinical and patient-friendly explanations\n- Provide templates for patient communication when requested\n\n## Input Format\nPatient Information:\n- Age: " ++
    patientAge ++
    "\n- Diagnosis: " ++
    diagnosis ++
    "\n- Severity: " ++
    severityLevel ++
    "\n- Additional Context: " ++
    additionalContext ++
    "\n\n## Output Format - CRITICAL INSTRUCTIONS\n\n### JSON Response Requirements (MANDATORY)\nYou MUST respond with a valid, well-formed JSON object. Your entire response should be parseable as JSON with no additional text before or after.\n\n**CRITICAL JSON RULES:**\n1. Response must start with opening brace and end with closing brace\n2. No markdown formatting, explanations, or text outside the JSON\n3. Use double quotes for all strings (not single quotes)\n4. All numeric values must be valid numbers (not strings)\n5. Arrays must contain properly formatted objects\n6. All required fields must be present (see schema below)\n\n### Required JSON Schema (Simplified)\nYour response must include these fields:\n- diagnosis: string with exact diagnosis name\n- treatment_summary: string with brief overview\n- medications: array of medication names/dosing\n- treatment_steps: array of step instructions\n- home_care: array of home care instructions\n- when_to_see_doctor: array of warning signs\n- follow_up: string with timing and conditions\n\n### Validation Checklist (Use Before Responding)\nBefore providing your JSON response, verify:\n- [ ] Response starts with opening brace and ends with closing brace\n- [ ] All strings use double quotes\n- [ ] No single quotes anywhere in the JSON\n- [ ] All required fields are present (diagnosis, treatment_summary, medications, treatment_steps, home_care, when_to_see_doctor, follow_up)\n- [ ] Arrays contain properly formatted strings\n- [ ] No markdown code blocks or explanatory text\n\n### Example Valid Response (Use as Template)\nRemember to use proper JSON format with double quotes, required fields, and no markdown formatting.\n\nRemember: This is clinical decision support, not a substitute for clinical judgment. Always consider individual patient factors and local protocols.\n"

/-- `TREATMENT_PLAN_PROMPT_TEMPLATE.format(...)`. -/
def treatmentPlanPromptRendered (masterPrompt diagnosis patientAge severityLevel
    currentMedications allergies comorbidities : String) : String :=

    "\n" ++
    masterPrompt ++
    "\n\n## Treatment Plan Request\nCreate a detailed treatment plan for:\n- Diagnosis: " ++
    diagnosis ++
    "\n- Patient Age: " ++
    patientAge ++
    "\n- Severity: " ++
    severityLevel ++
    "\n- Current Medications: " ++
    currentMedications ++
    "\n- Allergies: " ++
    allergies ++
    "\n- Comorbidities: " ++
    comorbidities ++
    "\n\nFocus on practical, implementable steps with specific medications, dosing, and monitoring parameters.\n"

/-- `PromptEngine.render_treatment_plan_prompt`. -/
def renderTreatmentPlanPrompt (diagnosis : String) (patientAge : Int)
    (severityLevel : String) (currentMedications : String := "None")
    (allergies : String := "None known") (comorbidities : String := "None") : String :=
  let additionalContext := "Current medications: " ++ currentMedications ++
    ", Allergies: " ++ allergies ++ ", Comorbidities: " ++ comorbidities
  let masterRendered := masterPromptRendered (toString patientAge) diagnosis
    severityLevel additionalContext
  treatmentPlanPromptRendered masterRendered diagnosis (toString patientAge)
    severityLevel currentMedications allergies comorbidities

/-- `PromptEngine.build_treatment_prompt`. -/
def buildTreatmentPrompt (diagnosis : String) (age : Int)
    (context : Option String := none) (detailLevel : String := "detailed") : String :=
  renderTreatmentPlanPrompt diagnosis age detailLevel
    (match context with | none => "None" | some c => c) "None known" "None"

end PediAssist

set_option maxRecDepth 10000 in
/-- A built treatment prompt is recognized as a system prompt by the safety
validator (it carries at least 3 of the 5 system-prompt indicators). -/
theorem earPrompt_system :
    PediAssist.isSystemPrompt (PediAssist.buildTreatmentPrompt "ear infection" 5) = true := by
  decide

set_option maxRecDepth 10000 in
/-- A built treatment prompt passes `validate_prompt`. -/
theorem earPrompt_safe :
    (PediAssist.validatePrompt (PediAssist.buildTreatmentPrompt "ear infection" 5) none).is_safe
      = true := by decide

set_option maxRecDepth 10000 in
/-- A built treatment prompt announces a structured (JSON) response. -/
theorem earPrompt_json :
    PediAssist.isJsonResponseExpected (PediAssist.buildTreatmentPrompt "ear infection" 5)
      = true := by decide

namespace PediAssist

/-! ## `cost_tracker.py` — `CostTracker`

Timestamps are natural numbers; the rolling windows "calendar month to
date" and "UTC midnight to now" are represented by explicit
`monthStart`/`dayStart` bounds.  Costs are rationals. -/

/-- `UsageRecord`. -/
structure UsageRecord where
  timestamp : Nat
  provider : String
  model : String
  tokens_used : Nat
  cost_usd : ℚ
  request_type : String
  success : Bool
  response_time_ms : Option Nat := none
deriving Repr, DecidableEq

/-- The in-memory state of a `CostTracker` (the persisted file mirrors
`usage_records`; persistence failures are non-fatal and not modelled). -/
structure CostTracker where
  records : List UsageRecord
  monthlyBudget : ℚ := 100
  dailyBudget : ℚ := 10
deriving Repr, DecidableEq

/-- `_get_cost_per_token` combined with the two-level `.get` fallback of
`calculate_cost` (unknown provider or model fall back to `0.01 / 1000`). -/
def costPerToken (provider model : String) : ℚ :=
  if provider = "openai" then
    if model = "gpt-4" then 3 / 100000
    else if model = "gpt-4-turbo" then 1 / 100000
    else if model = "gpt-3.5-turbo" then 2 / 1000000
    else 1 / 100000
  else if provider = "anthropic" then
    if model = "claude-3-opus" then 15 / 1000000
    else if model = "claude-3-sonnet" then 3 / 1000000
    else if model = "claude-3-haiku" then 25 / 100000000
    else 1 / 100000
  else if provider = "azure_openai" then
    if model = "gpt-4" then 3 / 100000
    else if model = "gpt-35-turbo" then 2 / 1000000
    else 1 / 100000
  else if provider = "google" then
    if model = "gemini-pro" then 5 / 10000000
    else if model = "gemini-pro-vision" then 25 / 10000000
    else 1 / 100000
  else if provider = "ollama" then
    if model = "llama2" || model = "mistral" || model = "codellama" then 0
    else 1 / 100000
  else if provider = "local" then
    if model = "local-model" then 0
    else 1 / 100000
  else 1 / 100000

/-- `calculate_cost`. -/
def calculateCost (provider model : String) (tokens : Nat) : ℚ :=
  tokens * costPerToken provider model

/-- `get_monthly_usage`: cost over successful records since the month start. -/
def getMonthlyUsage (ct : CostTracker) (monthStart : Nat) : ℚ :=
  (ct.records.filter fun r => monthStart ≤ r.timestamp && r.success).foldl
    (fun acc r => acc + r.cost_usd) 0

/-- `get_daily_usage`: cost over successful records since UTC midnight. -/
def getDailyUsage (ct : CostTracker) (dayStart : Nat) : ℚ :=
  (ct.records.filter fun r => dayStart ≤ r.timestamp && r.success).foldl
    (fun acc r => acc + r.cost_usd) 0

/-- Python truthiness of the optional `estimated_cost` argument
(`None` and `0` are falsy). -/
def estTruthy : Option ℚ → Bool
  | none => false
  | some c => decide (c ≠ 0)

/-- `can_make_request`. -/
def canMakeRequest (ct : CostTracker) (monthStart dayStart : Nat)
    (estimatedCost : Option ℚ) : Bool :=
  let monthlyUsage := getMonthlyUsage ct monthStart
  if ct.monthlyBudget ≤ monthlyUsage then false
  else
    let dailyUsage := getDailyUsage ct dayStart
    if ct.dailyBudget ≤ dailyUsage then false
    else
      if estTruthy estimatedCost then
        match estimatedCost with
        | some c =>
          if ct.monthlyBudget < monthlyUsage + c then false
          else if ct.dailyBudget < dailyUsage + c then false
          else true
        | none => true
      else true

/-- `track_request`: appends a record (and persists, which is not modelled). -/
def trackRequest (ct : CostTracker) (now : Nat) (provider model : String)
    (tokensUsed : Nat) (costUsd : ℚ) (requestType : String) (success : Bool := true)
    (responseTimeMs : Option Nat := none) : CostTracker :=
  { ct with records := ct.records ++
      [{ timestamp := now, provider := provider, model := model,
         tokens_used := tokensUsed, cost_usd := costUsd,
         request_type := requestType, success := success,
         response_time_ms := responseTimeMs }] }

end PediAssist

example :
    PediAssist.canMakeRequest ⟨[⟨5, "openai", "gpt-4", 10, 100, "t", true, none⟩], 100, 10⟩
      0 0 none = false := by norm_num [PediAssist.canMakeRequest,
    PediAssist.getMonthlyUsage, PediAssist.getDailyUsage, PediAssist.estTruthy]
example : PediAssist.canMakeRequest ⟨[], 100, 10⟩ 0 0 none = true := by
  norm_num [PediAssist.canMakeRequest, PediAssist.getMonthlyUsage,
    PediAssist.getDailyUsage, PediAssist.estTruthy]
example : PediAssist.calculateCost "openai" "gpt-4" 1000 = 3 / 100 := by
  norm_num [PediAssist.calculateCost, PediAssist.costPerToken]
example : PediAssist.calculateCost "nobody" "x" 1000 = 1 / 100 := by
  simp +decide only [PediAssist.calculateCost, PediAssist.costPerToken,
    String.reduceEq, if_false, if_neg]
  norm_num

namespace PediAssist

/-! ## `client.py` — `LLMClient` orchestration

The network is modelled by an environment function from the index of the
backend call (`litellm.completion` invocation) to its outcome; exceptions
are `Except` errors.  `ValueError` from `get_provider_config` is raised
before any backend call, so it consumes no call. -/

/-- Outcome of one `litellm.completion` call. -/
inductive BackendOutcome where
  | ok (content : String) (tokens : Nat)
  | rateLimit
  | authFailure
  | otherFailure
deriving Repr, DecidableEq

/-- The exceptions that can escape the client (plus the `ValueError` from
`ProviderManager.get_provider_config` and the `RetryError` raised by
tenacity when all attempts are exhausted). -/
inductive LLMErr where
  | rateLimit
  | contentSafety
  | costExceeded
  | llmError
  | valueError
  | retryError
deriving Repr, DecidableEq

/-- The `LLMResponse` dataclass.  `response_time_ms` is wall-clock time and
is modelled as `0`. -/
structure LLMResponse where
  content : String
  tokens_used : Nat
  cost_usd : ℚ
  provider : String
  model : String
  response_time_ms : Nat := 0
  safety_score : ℚ
  cached : Bool := false
deriving Repr, DecidableEq

/-- The providers known to `ProviderManager._initialize_providers`. -/
def knownProviders : List String :=
  ["openai", "anthropic", "azure_openai", "google", "ollama", "local"]

/-- The JSON-normalization chain of `_generate_completion` applied to the
`content` field that reaches the caller (the local `parsed_content` is
dropped).  The inner `json.loads(extracted_json)` re-check of the source is
kept even though `_extract_json_from_text` only returns parsable strings. -/
def normalizeContent (prompt content : String) : String :=
  if isJsonResponseExpected prompt then
    if (jsonLoads content).isSome then content
    else
      match extractJsonFromText content with
      | some extracted =>
        if (jsonLoads extracted).isSome then extracted
        else createFallbackJsonResponse content
      | none => createFallbackJsonResponse content
  else content

/-- The environment of a run: backend outcomes by call index, the current
time, and the budget-window bounds. -/
structure PlanEnv where
  backend : Nat → BackendOutcome
  now : Nat
  monthStart : Nat
  dayStart : Nat

/-- The mutable state touched by a request: the cost ledger and the number
of backend calls made so far. -/
structure ClientState where
  tracker : CostTracker
  calls : Nat := 0

/-- `_generate_completion` for one call slot: result plus the number of
backend calls consumed (`0` when the provider lookup raises first). -/
def genCompletion (env : PlanEnv) (callIdx : Nat)
    (prompt provider model : String) : Except LLMErr LLMResponse × Nat :=
  if knownProviders.contains provider = false then (.error .valueError, 0)
  else
    match env.backend callIdx with
    | .ok content tokens =>
      (.ok { content := normalizeContent prompt content,
             tokens_used := tokens,
             cost_usd := calculateCost provider model tokens,
             provider := provider, model := model,
             response_time_ms := 0, safety_score := 9 / 10,
             cached := false }, 1)
    | .rateLimit => (.error .rateLimit, 1)
    | .authFailure => (.error .llmError, 1)
    | .otherFailure => (.error .llmError, 1)

/-- One attempt of the `generate_treatment_plan` body: budget gate, prompt
build, prompt safety gate, completion, response safety check (computed and
logged but never acted on), cost tracking. -/
def generateTreatmentPlanOnce (env : PlanEnv) (st : ClientState)
    (diagnosis : String) (age : Int) (provider model : String) :
    Except LLMErr LLMResponse × ClientState :=
  if canMakeRequest st.tracker env.monthStart env.dayStart none = false then
    (.error .costExceeded, st)
  else
    let prompt := buildTreatmentPrompt diagnosis age
    if (validatePrompt prompt none).is_safe = false then
      (.error .contentSafety, st)
    else
      match genCompletion env st.calls prompt provider model with
      | (.error e, k) => (.error e, { st with calls := st.calls + k })
      | (.ok resp, k) =>
        let st1 : ClientState := { st with calls := st.calls + k }
        let _responseCheck := validateResponse resp.content none
        let tracker1 := trackRequest st1.tracker env.now provider model
          resp.tokens_used resp.cost_usd "treatment_plan"
        (.ok resp, { st1 with tracker := tracker1 })

/-- The tenacity wrapper: up to `fuel` attempts, retrying only on
`LLMRateLimitError` (`asyncio.TimeoutError` is not modelled); when the
stop condition ends the attempts, tenacity raises `RetryError`. -/
def generateTreatmentPlanRetry (env : PlanEnv) (diagnosis : String)
    (age : Int) (provider model : String) :
    Nat → ClientState → Except LLMErr LLMResponse × ClientState
  | 0, st => (.error .retryError, st)
  | n + 1, st =>
    match generateTreatmentPlanOnce env st diagnosis age provider model with
    | (.error .rateLimit, st1) =>
      if n = 0 then (.error .retryError, st1)
      else generateTreatmentPlanRetry env diagnosis age provider model n st1
    | r => r

/-- `generate_treatment_plan` with its `@retry(stop=stop_after_attempt(3), ...)`. -/
def generateTreatmentPlan (env : PlanEnv) (st : ClientState)
    (diagnosis : String) (age : Int) (provider model : String) :
    Except LLMErr LLMResponse × ClientState :=
  generateTreatmentPlanRetry env diagnosis age provider model 3 st

end PediAssist

namespace PediAssist

/-- Unfolding lemma for one retry attempt. -/
theorem generateTreatmentPlanRetry_succ (env : PlanEnv) (diagnosis : String)
    (age : Int) (provider model : String) (n : Nat) (st : ClientState) :
    generateTreatmentPlanRetry env diagnosis age provider model (n + 1) st =
      match generateTreatmentPlanOnce env st diagnosis age provider model with
      | (.error .rateLimit, st1) =>
        if n = 0 then (.error .retryError, st1)
        else generateTreatmentPlanRetry env diagnosis age provider model n st1
      | r => r := rfl

end PediAssist

namespace PediAssist

/-- **C10** (amended).  `can_make_request` denies exactly when the ledger is
already at or over a budget under the non-strict pre-checks
(`monthly_usage >= monthly_budget`, `daily_usage >= daily_budget`), or a
*truthy* estimated cost (`Some c` with `c ≠ 0`; `None` and `0` are falsy)
strictly overshoots a budget.  This differs from the spec in two ways: the
pre-checks use `>=` rather than the strict `>` of the spec formula, and
`estimated_cost = 0` is treated like `None` because of `if estimated_cost:`. -/
theorem c10_canSpend_characterization (ct : CostTracker) (monthStart dayStart : Nat)
    (est : Option ℚ) :
    canMakeRequest ct monthStart dayStart est = false ↔
      ct.monthlyBudget ≤ getMonthlyUsage ct monthStart ∨
      ct.dailyBudget ≤ getDailyUsage ct dayStart ∨
      ∃ c, est = some c ∧ c ≠ 0 ∧
        (ct.monthlyBudget < getMonthlyUsage ct monthStart + c ∨
         ct.dailyBudget < getDailyUsage ct dayStart + c) := by
  cases est with
  | none =>
    simp only [canMakeRequest, estTruthy]
    split_ifs with h1 h2 <;> simp_all
  | some c =>
    simp only [canMakeRequest, estTruthy]
    by_cases hc : c = 0
    · subst hc
      split_ifs <;> simp_all
    · split_ifs <;> simp_all

/-- **C10** counterexample to the claim as stated: with the monthly spend
exactly at the $100 ceiling and `estimated_cost = 0`, the spec formula
(`currentMonthSpend + 0 > monthlyBudget ∨ currentDaySpend + 0 > dailyBudget`)
predicts `canSpend = true`, but `can_make_request` returns `false` because
its pre-check uses `>=`. -/
theorem c10_exact_budget_denied :
    canMakeRequest ⟨[⟨0, "openai", "gpt-4", 0, 100, "treatment_plan", true, none⟩], 100, 10⟩
        0 5 (some 0) = false ∧
    ¬ ((100 : ℚ) <
        getMonthlyUsage
          ⟨[⟨0, "openai", "gpt-4", 0, 100, "treatment_plan", true, none⟩], 100, 10⟩ 0 + 0 ∨
       (10 : ℚ) <
        getDailyUsage
          ⟨[⟨0, "openai", "gpt-4", 0, 100, "treatment_plan", true, none⟩], 100, 10⟩ 5 + 0) := by
  constructor
  · norm_num [canMakeRequest, getMonthlyUsage, getDailyUsage, estTruthy, List.filter]
  · norm_num [getMonthlyUsage, getDailyUsage, List.filter]

/-- **C2** (confirmed).  When the budget gate `can_make_request` denies, the
whole `generate_treatment_plan` call (including its tenacity retries) raises
`LLMCostExceededError` and returns the client state unchanged: no backend
call is counted and the cost ledger — hence `get_monthly_usage` — is
untouched. -/
theorem c2_budget_gate (env : PlanEnv) (st : ClientState) (diagnosis : String)
    (age : Int) (provider model : String)
    (h : canMakeRequest st.tracker env.monthStart env.dayStart none = false) :
    generateTreatmentPlan env st diagnosis age provider model =
      (.error .costExceeded, st) := by
  show generateTreatmentPlanRetry env diagnosis age provider model (2 + 1) st = _
  rw [generateTreatmentPlanRetry_succ]
  simp [generateTreatmentPlanOnce, h]

/-- **C2** witness: a tracker already at its (zero) monthly budget is denied
and the state comes back unchanged. -/
theorem c2_budget_gate_witness :
    canMakeRequest (⟨[], 0, 10⟩ : CostTracker) 0 0 none = false ∧
    generateTreatmentPlan ⟨fun _ => .ok "x" 1, 0, 0, 0⟩ ⟨⟨[], 0, 10⟩, 0⟩
        "fever" 3 "openai" "gpt-4"
      = (.error .costExceeded, ⟨⟨[], 0, 10⟩, 0⟩) :=
  ⟨by decide, c2_budget_gate ⟨fun _ => .ok "x" 1, 0, 0, 0⟩ ⟨⟨[], 0, 10⟩, 0⟩
    "fever" 3 "openai" "gpt-4" (by decide)⟩

end PediAssist

namespace PediAssist

/-- Evaluation of a successful `_generate_completion`-plus-tracking attempt:
under an allowed budget, a safe prompt, a known provider and an `ok` backend
outcome, one attempt returns the normalized response and appends exactly one
usage record. -/
theorem generateTreatmentPlanOnce_ok_eval (env : PlanEnv) (st : ClientState)
    (diagnosis : String) (age : Int) (provider model : String)
    (content : String) (tokens : Nat)
    (hb : canMakeRequest st.tracker env.monthStart env.dayStart none = true)
    (hs : (validatePrompt (buildTreatmentPrompt diagnosis age) none).is_safe = true)
    (hp : knownProviders.contains provider = true)
    (hok : env.backend st.calls = .ok content tokens) :
    generateTreatmentPlanOnce env st diagnosis age provider model =
      (.ok { content := normalizeContent (buildTreatmentPrompt diagnosis age) content,
             tokens_used := tokens,
             cost_usd := calculateCost provider model tokens,
             provider := provider, model := model,
             response_time_ms := 0, safety_score := 9 / 10, cached := false },
       { tracker := trackRequest st.tracker env.now provider model tokens
           (calculateCost provider model tokens) "treatment_plan",
         calls := st.calls + 1 }) := by
  have hp2 : provider ∈ knownProviders := by simpa using hp
  simp [generateTreatmentPlanOnce, genCompletion, hb, hs, hp2, hok]

/-- A successful first attempt is what the tenacity wrapper returns. -/
theorem generateTreatmentPlan_ok_eval (env : PlanEnv) (st : ClientState)
    (diagnosis : String) (age : Int) (provider model : String)
    (content : String) (tokens : Nat)
    (hb : canMakeRequest st.tracker env.monthStart env.dayStart none = true)
    (hs : (validatePrompt (buildTreatmentPrompt diagnosis age) none).is_safe = true)
    (hp : knownProviders.contains provider = true)
    (hok : env.backend st.calls = .ok content tokens) :
    generateTreatmentPlan env st diagnosis age provider model =
      (.ok { content := normalizeContent (buildTreatmentPrompt diagnosis age) content,
             tokens_used := tokens,
             cost_usd := calculateCost provider model tokens,
             provider := provider, model := model,
             response_time_ms := 0, safety_score := 9 / 10, cached := false },
       { tracker := trackRequest st.tracker env.now provider model tokens
           (calculateCost provider model tokens) "treatment_plan",
         calls := st.calls + 1 }) := by
  show generateTreatmentPlanRetry env diagnosis age provider model (2 + 1) st = _
  rw [generateTreatmentPlanRetry_succ,
    generateTreatmentPlanOnce_ok_eval env st diagnosis age provider model content tokens
      hb hs hp hok]

/-- A successful attempt presupposes that the built prompt passed the
prompt-side safety gate. -/
theorem generateTreatmentPlanOnce_ok_prompt_safe (env : PlanEnv) (st : ClientState)
    (diagnosis : String) (age : Int) (provider model : String)
    (resp : LLMResponse) (st1 : ClientState)
    (h : generateTreatmentPlanOnce env st diagnosis age provider model = (.ok resp, st1)) :
    (validatePrompt (buildTreatmentPrompt diagnosis age) none).is_safe = true := by
  cases hval : (validatePrompt (buildTreatmentPrompt diagnosis age) none).is_safe with
  | true => rfl
  | false =>
    exfalso
    simp only [generateTreatmentPlanOnce, hval] at h
    split at h
    · simp at h
    · simp at h

/-- `genCompletion` success characterization: the response is the normalized
backend content with `cached = false`, and exactly one call was consumed. -/
theorem genCompletion_ok_spec (env : PlanEnv) (callIdx : Nat)
    (prompt provider model : String) (resp : LLMResponse) (k : Nat)
    (h : genCompletion env callIdx prompt provider model = (.ok resp, k)) :
    resp.cached = false ∧ k = 1 ∧
      ∃ c, resp.content = normalizeContent prompt c := by
  unfold genCompletion at h
  split at h
  · simp at h
  · cases hb : env.backend callIdx <;> rw [hb] at h <;> simp at h
    case ok c t =>
      refine ⟨?_, h.2.symm, c, ?_⟩ <;> rw [← h.1]

/-- A successful attempt: the response has `cached = false`, its content is a
normalized backend content, and the new tracker is the old one with exactly
the one `treatment_plan` record appended. -/
theorem generateTreatmentPlanOnce_ok_state (env : PlanEnv) (st : ClientState)
    (diagnosis : String) (age : Int) (provider model : String)
    (resp : LLMResponse) (st1 : ClientState)
    (h : generateTreatmentPlanOnce env st diagnosis age provider model = (.ok resp, st1)) :
    resp.cached = false ∧
    (∃ c, resp.content = normalizeContent (buildTreatmentPrompt diagnosis age) c) ∧
    st1.tracker = trackRequest st.tracker env.now provider model
      resp.tokens_used resp.cost_usd "treatment_plan" := by
  simp only [generateTreatmentPlanOnce] at h
  split at h
  · simp at h
  · split at h
    · simp at h
    · cases hg : genCompletion env st.calls (buildTreatmentPrompt diagnosis age)
          provider model with
      | mk r k =>
        rw [hg] at h
        cases r with
        | error e => simp at h
        | ok resp2 =>
          simp at h
          obtain ⟨hcached, -, c, hc⟩ :=
            genCompletion_ok_spec env st.calls _ provider model resp2 k hg
          obtain ⟨hresp, hst⟩ := h
          subst hresp
          exact ⟨hcached, ⟨c, hc⟩, by rw [← hst]⟩

/-- A failed attempt never touches the cost ledger. -/
theorem generateTreatmentPlanOnce_error_tracker (env : PlanEnv) (st : ClientState)
    (diagnosis : String) (age : Int) (provider model : String)
    (e : LLMErr) (st1 : ClientState)
    (h : generateTreatmentPlanOnce env st diagnosis age provider model = (.error e, st1)) :
    st1.tracker = st.tracker := by
  simp only [generateTreatmentPlanOnce] at h
  split at h
  · simp at h; rw [← h.2]
  · split at h
    · simp at h; rw [← h.2]
    · cases hg : genCompletion env st.calls (buildTreatmentPrompt diagnosis age)
          provider model with
      | mk r k =>
        rw [hg] at h
        cases r with
        | error e2 => simp at h; rw [← h.2]
        | ok resp2 => simp at h

/-- Whatever the tenacity wrapper returns successfully is the result of one
successful attempt started from a state with the original cost ledger. -/
theorem generateTreatmentPlanRetry_ok_from_once (env : PlanEnv) (diagnosis : String)
    (age : Int) (provider model : String) :
    ∀ (n : Nat) (st : ClientState) (resp : LLMResponse) (st1 : ClientState),
      generateTreatmentPlanRetry env diagnosis age provider model n st = (.ok resp, st1) →
      ∃ st0 : ClientState, st0.tracker = st.tracker ∧
        generateTreatmentPlanOnce env st0 diagnosis age provider model = (.ok resp, st1) := by
  intro n
  induction n with
  | zero =>
    intro st resp st1 h
    exact absurd h (by simp [generateTreatmentPlanRetry])
  | succ k ih =>
    intro st resp st1 h
    rw [generateTreatmentPlanRetry_succ] at h
    cases honce : generateTreatmentPlanOnce env st diagnosis age provider model with
    | mk r st2 =>
      rw [honce] at h
      cases r with
      | ok resp2 =>
        simp at h
        exact ⟨st, rfl, by rw [honce, h.1, h.2]⟩
      | error e =>
        cases e with
        | rateLimit =>
          simp at h
          split at h
          · simp at h
          · obtain ⟨st0, htr, hres⟩ := ih st2 resp st1 h
            exact ⟨st0, by
              rw [htr,
                generateTreatmentPlanOnce_error_tracker env st diagnosis age provider
                  model _ st2 honce], hres⟩
        | contentSafety => simp at h
        | costExceeded => simp at h
        | llmError => simp at h
        | valueError => simp at h
        | retryError => simp at h

/-- Normalized content always parses when the prompt announces a structured
response, thanks to the parsable-candidate extraction and the total JSON
fallback. -/
theorem normalizeContent_parses (prompt content : String)
    (hexp : isJsonResponseExpected prompt = true) :
    (jsonLoads (normalizeContent prompt content)).isSome = true := by
  unfold normalizeContent
  rw [hexp]
  simp only [if_true]
  by_cases h1 : (jsonLoads content).isSome
  · simp [h1]
  · simp only [h1, if_false, Bool.false_eq_true]
    cases hex : extractJsonFromText content with
    | none => simp [fallback_parses]
    | some ex =>
      by_cases h2 : (jsonLoads ex).isSome <;> simp [h2, fallback_parses]

end PediAssist

namespace PediAssist

/-- **C1** (amended).  `generate_treatment_plan` enforces safety only on the
*outgoing prompt*: whenever a response is returned to the caller, the built
prompt passed `validate_prompt`.  The response-side `validate_response`
verdict is computed but only logged, so it does not gate the return (see the
counterexample). -/
theorem c1_prompt_gate (env : PlanEnv) (st : ClientState) (diagnosis : String)
    (age : Int) (provider model : String) (resp : LLMResponse) (st1 : ClientState)
    (h : generateTreatmentPlan env st diagnosis age provider model = (.ok resp, st1)) :
    (validatePrompt (buildTreatmentPrompt diagnosis age) none).is_safe = true := by
  have h3 : generateTreatmentPlanRetry env diagnosis age provider model 3 st
      = (.ok resp, st1) := h
  obtain ⟨st0, -, honce⟩ :=
    generateTreatmentPlanRetry_ok_from_once env diagnosis age provider model 3 st resp st1 h3
  exact generateTreatmentPlanOnce_ok_prompt_safe env st0 diagnosis age provider model
    resp st1 honce

set_option maxRecDepth 100000 in
set_option maxHeartbeats 4000000 in
/-- **C1** counterexample to the claim as stated: a backend completion whose
normalized content *fails* `validate_response` (it contains the emergency
indicator "urgent" with no escalation disclaimer, so `is_safe = false`) is
nevertheless returned to the caller — the failed response-side check is only
logged. -/
theorem c1_unsafe_response_returned :
    ∃ (resp : LLMResponse) (st1 : ClientState),
      generateTreatmentPlan ⟨fun _ => .ok "This is urgent." 10, 0, 0, 0⟩
          ⟨⟨[], 100, 10⟩, 0⟩ "ear infection" 5 "openai" "gpt-4" = (.ok resp, st1) ∧
      (validateResponse resp.content none).is_safe = false := by
  refine ⟨_, _, generateTreatmentPlan_ok_eval ⟨fun _ => .ok "This is urgent." 10, 0, 0, 0⟩
    ⟨⟨[], 100, 10⟩, 0⟩ "ear infection" 5 "openai" "gpt-4" "This is urgent." 10
    (by decide) earPrompt_safe (by decide) rfl, ?_⟩
  have hn : normalizeContent (buildTreatmentPrompt "ear infection" 5) "This is urgent."
      = createFallbackJsonResponse "This is urgent." := by
    unfold normalizeContent
    rw [earPrompt_json]
    simp [show (jsonLoads "This is urgent.").isSome = false from rfl,
          show extractJsonFromText "This is urgent." = none from rfl]
  show (validateResponse (normalizeContent (buildTreatmentPrompt "ear infection" 5)
    "This is urgent.") none).is_safe = false
  rw [hn]
  decide

set_option maxRecDepth 100000 in
/-- **C1** witness: a concrete successful run, whose prompt indeed passed the
prompt-side gate. -/
theorem c1_prompt_gate_witness :
    generateTreatmentPlan ⟨fun _ => .ok "\x7b\"ok\": true\x7d" 7, 0, 0, 0⟩
        ⟨⟨[], 100, 10⟩, 0⟩ "ear infection" 5 "anthropic" "claude-3-haiku"
      = (.ok { content := normalizeContent (buildTreatmentPrompt "ear infection" 5)
                 "\x7b\"ok\": true\x7d",
               tokens_used := 7, cost_usd := calculateCost "anthropic" "claude-3-haiku" 7,
               provider := "anthropic", model := "claude-3-haiku",
               response_time_ms := 0, safety_score := 9 / 10, cached := false },
         { tracker := trackRequest ⟨[], 100, 10⟩ 0 "anthropic" "claude-3-haiku" 7
             (calculateCost "anthropic" "claude-3-haiku" 7) "treatment_plan",
           calls := 1 }) ∧
    (validatePrompt (buildTreatmentPrompt "ear infection" 5) none).is_safe = true := by
  have h := generateTreatmentPlan_ok_eval ⟨fun _ => .ok "\x7b\"ok\": true\x7d" 7, 0, 0, 0⟩
    ⟨⟨[], 100, 10⟩, 0⟩ "ear infection" 5 "anthropic" "claude-3-haiku"
    "\x7b\"ok\": true\x7d" 7 (by decide) earPrompt_safe (by decide) rfl
  exact ⟨h, c1_prompt_gate _ _ _ _ _ _ _ _ h⟩

/-- **C5** (confirmed).  Whenever the built prompt announces a structured
response, any content returned by `generate_treatment_plan` parses as JSON:
direct parse, extraction of a parsable fragment, or the total fallback
synthesis. -/
theorem c5_structured_output_parses (env : PlanEnv) (st : ClientState)
    (diagnosis : String) (age : Int) (provider model : String)
    (resp : LLMResponse) (st1 : ClientState)
    (hexp : isJsonResponseExpected (buildTreatmentPrompt diagnosis age) = true)
    (h : generateTreatmentPlan env st diagnosis age provider model = (.ok resp, st1)) :
    (jsonLoads resp.content).isSome = true := by
  have h3 : generateTreatmentPlanRetry env diagnosis age provider model 3 st
      = (.ok resp, st1) := h
  obtain ⟨st0, -, honce⟩ :=
    generateTreatmentPlanRetry_ok_from_once env diagnosis age provider model 3 st resp st1 h3
  obtain ⟨-, ⟨c, hc⟩, -⟩ :=
    generateTreatmentPlanOnce_ok_state env st0 diagnosis age provider model resp st1 honce
  rw [hc]
  exact normalizeContent_parses _ _ hexp

set_option maxRecDepth 100000 in
/-- **C5** witness: a plain-prose backend reply to a structured prompt still
yields parsable content (the fallback JSON). -/
theorem c5_structured_output_parses_witness :
    isJsonResponseExpected (buildTreatmentPrompt "ear infection" 5) = true ∧
    ∃ (resp : LLMResponse) (st1 : ClientState),
      generateTreatmentPlan ⟨fun _ => .ok "Plain prose advice." 12, 0, 0, 0⟩
          ⟨⟨[], 100, 10⟩, 0⟩ "ear infection" 5 "google" "gemini-pro" = (.ok resp, st1) ∧
      (jsonLoads resp.content).isSome = true := by
  have h := generateTreatmentPlan_ok_eval ⟨fun _ => .ok "Plain prose advice." 12, 0, 0, 0⟩
    ⟨⟨[], 100, 10⟩, 0⟩ "ear infection" 5 "google" "gemini-pro" "Plain prose advice." 12
    (by decide) earPrompt_safe (by decide) rfl
  exact ⟨earPrompt_json, _, _, h,
    c5_structured_output_parses _ _ _ _ _ _ _ _ earPrompt_json h⟩

end PediAssist

namespace PediAssist

/-- **C3** (amended).  `generate_treatment_plan` never consults any cache:
every response handed to the caller has `cached = false`, and every
successful call appends exactly one new usage record to the ledger — so a
second identical request is re-billed rather than served from a cache (the
`QueryCache`/`SmartQueryCache` module is never wired into the client). -/
theorem c3_no_cache_ledger_grows (env : PlanEnv) (st : ClientState)
    (diagnosis : String) (age : Int) (provider model : String)
    (resp : LLMResponse) (st1 : ClientState)
    (h : generateTreatmentPlan env st diagnosis age provider model = (.ok resp, st1)) :
    resp.cached = false ∧
    st1.tracker.records = st.tracker.records ++
      [{ timestamp := env.now, provider := provider, model := model,
         tokens_used := resp.tokens_used, cost_usd := resp.cost_usd,
         request_type := "treatment_plan", success := true, response_time_ms := none }] := by
  have h3 : generateTreatmentPlanRetry env diagnosis age provider model 3 st
      = (.ok resp, st1) := h
  obtain ⟨st0, htr, honce⟩ :=
    generateTreatmentPlanRetry_ok_from_once env diagnosis age provider model 3 st resp st1 h3
  obtain ⟨hcached, -, hst⟩ :=
    generateTreatmentPlanOnce_ok_state env st0 diagnosis age provider model resp st1 honce
  exact ⟨hcached, by rw [hst, htr]; simp [trackRequest]⟩

set_option maxRecDepth 100000 in
/-- **C3** counterexample to the claim as stated: the very same request issued
twice in immediate succession (trivially within any TTL) is *not* served from
a cache on the second call — the second response still has `cached = false`
and the ledger's monthly spend strictly increases. -/
theorem c3_second_identical_call_not_cached :
    generateTreatmentPlan ⟨fun _ => .ok "\x7b\"plan\": 1\x7d" 1000, 0, 0, 0⟩
        ⟨⟨[], 100, 10⟩, 0⟩ "ear infection" 5 "openai" "gpt-4"
      = (.ok { content := normalizeContent (buildTreatmentPrompt "ear infection" 5)
                 "\x7b\"plan\": 1\x7d",
               tokens_used := 1000, cost_usd := calculateCost "openai" "gpt-4" 1000,
               provider := "openai", model := "gpt-4",
               response_time_ms := 0, safety_score := 9 / 10, cached := false },
         { tracker := trackRequest ⟨[], 100, 10⟩ 0 "openai" "gpt-4" 1000
             (calculateCost "openai" "gpt-4" 1000) "treatment_plan",
           calls := 1 }) ∧
    generateTreatmentPlan ⟨fun _ => .ok "\x7b\"plan\": 1\x7d" 1000, 0, 0, 0⟩
        { tracker := trackRequest ⟨[], 100, 10⟩ 0 "openai" "gpt-4" 1000
            (calculateCost "openai" "gpt-4" 1000) "treatment_plan",
          calls := 1 } "ear infection" 5 "openai" "gpt-4"
      = (.ok { content := normalizeContent (buildTreatmentPrompt "ear infection" 5)
                 "\x7b\"plan\": 1\x7d",
               tokens_used := 1000, cost_usd := calculateCost "openai" "gpt-4" 1000,
               provider := "openai", model := "gpt-4",
               response_time_ms := 0, safety_score := 9 / 10, cached := false },
         { tracker := trackRequest
             (trackRequest ⟨[], 100, 10⟩ 0 "openai" "gpt-4" 1000
               (calculateCost "openai" "gpt-4" 1000) "treatment_plan")
             0 "openai" "gpt-4" 1000
             (calculateCost "openai" "gpt-4" 1000) "treatment_plan",
           calls := 2 }) ∧
    getMonthlyUsage
        (trackRequest
          (trackRequest ⟨[], 100, 10⟩ 0 "openai" "gpt-4" 1000
            (calculateCost "openai" "gpt-4" 1000) "treatment_plan")
          0 "openai" "gpt-4" 1000
          (calculateCost "openai" "gpt-4" 1000) "treatment_plan") 0
      ≠ getMonthlyUsage
          (trackRequest ⟨[], 100, 10⟩ 0 "openai" "gpt-4" 1000
            (calculateCost "openai" "gpt-4" 1000) "treatment_plan") 0 := by
  have h1 := generateTreatmentPlan_ok_eval ⟨fun _ => .ok "\x7b\"plan\": 1\x7d" 1000, 0, 0, 0⟩
    ⟨⟨[], 100, 10⟩, 0⟩ "ear infection" 5 "openai" "gpt-4" "\x7b\"plan\": 1\x7d" 1000
    (by decide) earPrompt_safe (by decide) rfl
  have hb2 : canMakeRequest (trackRequest ⟨[], 100, 10⟩ 0 "openai" "gpt-4" 1000
      (calculateCost "openai" "gpt-4" 1000) "treatment_plan") 0 0 none = true := by
    norm_num [canMakeRequest, getMonthlyUsage, getDailyUsage, estTruthy, trackRequest,
      calculateCost, costPerToken, List.filter]
  have h2 := generateTreatmentPlan_ok_eval ⟨fun _ => .ok "\x7b\"plan\": 1\x7d" 1000, 0, 0, 0⟩
    { tracker := trackRequest ⟨[], 100, 10⟩ 0 "openai" "gpt-4" 1000
        (calculateCost "openai" "gpt-4" 1000) "treatment_plan", calls := 1 }
    "ear infection" 5 "openai" "gpt-4" "\x7b\"plan\": 1\x7d" 1000
    hb2 earPrompt_safe (by decide) rfl
  refine ⟨h1, h2, ?_⟩
  norm_num [getMonthlyUsage, trackRequest, calculateCost, costPerToken, List.filter]

/-- **C4** (amended).  An authentication failure is wrapped into the generic
`LLMError` and surfaces at once: tenacity does not retry it (only rate limits
are retried), there is no fallback-provider logic anywhere in the client, no
further backend call happens, and no usage record is written. -/
theorem c4_auth_error_immediate (env : PlanEnv) (st : ClientState)
    (diagnosis : String) (age : Int) (provider model : String)
    (hb : canMakeRequest st.tracker env.monthStart env.dayStart none = true)
    (hs : (validatePrompt (buildTreatmentPrompt diagnosis age) none).is_safe = true)
    (hp : knownProviders.contains provider = true)
    (hauth : env.backend st.calls = .authFailure) :
    generateTreatmentPlan env st diagnosis age provider model =
      (.error .llmError, { tracker := st.tracker, calls := st.calls + 1 }) := by
  have hp2 : provider ∈ knownProviders := by simpa using hp
  have honce : generateTreatmentPlanOnce env st diagnosis age provider model =
      (.error .llmError, { tracker := st.tracker, calls := st.calls + 1 }) := by
    simp [generateTreatmentPlanOnce, genCompletion, hb, hs, hp2, hauth]
  show generateTreatmentPlanRetry env diagnosis age provider model (2 + 1) st = _
  rw [generateTreatmentPlanRetry_succ, honce]

set_option maxRecDepth 100000 in
/-- **C4** counterexample to the claim as stated: the primary backend fails
with an authentication failure while a second call would succeed (simulating
an available fallback), yet the client surfaces an error after exactly one
backend call: no fallback is attempted and no usage record is written, let
alone one carrying a fallback id. -/
theorem c4_auth_failure_no_fallback :
    generateTreatmentPlan
        ⟨fun i => if i = 0 then .authFailure else .ok "recovered" 5, 0, 0, 0⟩
        ⟨⟨[], 100, 10⟩, 0⟩ "ear infection" 5 "openai" "gpt-4"
      = (.error .llmError, ⟨⟨[], 100, 10⟩, 1⟩) := by
  have hmem : "openai" ∈ knownProviders := by decide
  have honce : generateTreatmentPlanOnce
      ⟨fun i => if i = 0 then .authFailure else .ok "recovered" 5, 0, 0, 0⟩
      ⟨⟨[], 100, 10⟩, 0⟩ "ear infection" 5 "openai" "gpt-4"
      = (.error .llmError, ⟨⟨[], 100, 10⟩, 1⟩) := by
    simp [generateTreatmentPlanOnce, genCompletion, hmem, earPrompt_safe,
      show canMakeRequest (⟨[], 100, 10⟩ : CostTracker) 0 0 none = true by decide]
  show generateTreatmentPlanRetry _ "ear infection" 5 "openai" "gpt-4" (2 + 1) _ = _
  rw [generateTreatmentPlanRetry_succ, honce]

set_option maxRecDepth 100000 in
/-- **C4** witness: a concrete authentication failure surfacing immediately
with one call counted and an untouched ledger. -/
theorem c4_auth_error_immediate_witness :
    canMakeRequest (⟨[], 100, 10⟩ : CostTracker) 0 0 none = true ∧
    generateTreatmentPlan ⟨fun _ => .authFailure, 0, 0, 0⟩ ⟨⟨[], 100, 10⟩, 0⟩
        "ear infection" 5 "google" "gemini-pro"
      = (.error .llmError, ⟨⟨[], 100, 10⟩, 1⟩) :=
  ⟨by decide, c4_auth_error_immediate ⟨fun _ => .authFailure, 0, 0, 0⟩ ⟨⟨[], 100, 10⟩, 0⟩
    "ear infection" 5 "google" "gemini-pro" (by decide) earPrompt_safe (by decide) rfl⟩

end PediAssist

namespace PediAssist

/-! ## `hashlib.sha256` and `str.encode`

`cache.py` keys entries by `hashlib.sha256(...).hexdigest()` of the UTF-8
encoded cache JSON, and `get_similar` re-hashes each stored key.  SHA-256 is
implemented here over `Nat` words reduced modulo `2 ^ 32` (FIPS 180-4). -/

/-- `str.encode()`: UTF-8 bytes of a string. -/
def utf8Bytes : List Char → List Nat
  | [] => []
  | c :: t =>
    let n := c.toNat
    (if n < 0x80 then [n]
     else if n < 0x800 then
       [0xc0 ||| (n >>> 6), 0x80 ||| (n &&& 0x3f)]
     else if n < 0x10000 then
       [0xe0 ||| (n >>> 12), 0x80 ||| ((n >>> 6) &&& 0x3f), 0x80 ||| (n &&& 0x3f)]
     else
       [0xf0 ||| (n >>> 18), 0x80 ||| ((n >>> 12) &&& 0x3f),
        0x80 ||| ((n >>> 6) &&& 0x3f), 0x80 ||| (n &&& 0x3f)]) ++ utf8Bytes t

/-- Right rotation of a 32-bit word. -/
def rotr32 (n x : Nat) : Nat :=
  ((x >>> n) ||| (x <<< (32 - n))) &&& 0xffffffff

/-- The SHA-256 round constants (FIPS 180-4, in decimal). -/
def shaK : List Nat :=
  [1116352408, 1899447441, 3049323471, 3921009573, 961987163, 1508970993,
   2453635748, 2870763221, 3624381080, 310598401, 607225278, 1426881987,
   1925078388, 2162078206, 2614888103, 3248222580, 3835390401, 4022224774,
   264347078, 604807628, 770255983, 1249150122, 1555081692, 1996064986,
   2554220882, 2821834349, 2952996808, 3210313671, 3336571891, 3584528711,
   113926993, 338241895, 666307205, 773529912, 1294757372, 1396182291,
   1695183700, 1986661051, 2177026350, 2456956037, 2730485921, 2820302411,
   3259730800, 3345764771, 3516065817, 3600352804, 4094571909, 275423344,
   430227734, 506948616, 659060556, 883997877, 958139571, 1322822218,
   1537002063, 1747873779, 1955562222, 2024104815, 2227730452, 2361852424,
   2428436474, 2756734187, 3204031479, 3329325298]

/-- The SHA-256 initial hash value (FIPS 180-4, in decimal). -/
def shaH0 : List Nat :=
  [1779033703, 3144134277, 1013904242, 2773480762,
   1359893119, 2600822924, 528734635, 1541459225]

/-- Big-endian bytes of a value, most significant first. -/
def beBytes : Nat → Nat → List Nat
  | 0, _ => []
  | n + 1, v => beBytes n (v >>> 8) ++ [v &&& 0xff]

/-- SHA-256 padding: a `0x80` byte, zeros to 56 mod 64, then the bit length
as a 64-bit big-endian integer. -/
def shaPad (msg : List Nat) : List Nat :=
  msg ++ [0x80] ++ List.replicate ((119 - msg.length % 64) % 64) 0 ++
    beBytes 8 (msg.length * 8)

/-- Big-endian 32-bit words from bytes. -/
def bytesToWords : List Nat → List Nat
  | b0 :: b1 :: b2 :: b3 :: t =>
    ((((b0 <<< 8) ||| b1) <<< 8 ||| b2) <<< 8 ||| b3) :: bytesToWords t
  | _ => []

/-- Append the next word of the message schedule. -/
def shaExtendStep (ws : List Nat) : List Nat :=
  let i := ws.length
  let w15 := ws.getD (i - 15) 0
  let w2 := ws.getD (i - 2) 0
  let s0 := (rotr32 7 w15) ^^^ (rotr32 18 w15) ^^^ (w15 >>> 3)
  let s1 := (rotr32 17 w2) ^^^ (rotr32 19 w2) ^^^ (w2 >>> 10)
  ws ++ [(ws.getD (i - 16) 0 + s0 + ws.getD (i - 7) 0 + s1) % 4294967296]

/-- Iterate the schedule extension. -/
def shaExtendN : Nat → List Nat → List Nat
  | 0, ws => ws
  | n + 1, ws => shaExtendN n (shaExtendStep ws)

/-- One SHA-256 round on the state `[a, b, c, d, e, f, g, h]`. -/
def shaRound (state : List Nat) (k w : Nat) : List Nat :=
  match state with
  | [a, b, c, d, e, f, g, h] =>
    let s1 := (rotr32 6 e) ^^^ (rotr32 11 e) ^^^ (rotr32 25 e)
    let ch := (e &&& f) ^^^ ((0xffffffff ^^^ e) &&& g)
    let temp1 := (h + s1 + ch + k + w) % 4294967296
    let s0 := (rotr32 2 a) ^^^ (rotr32 13 a) ^^^ (rotr32 22 a)
    let maj := (a &&& b) ^^^ (a &&& c) ^^^ (b &&& c)
    let temp2 := (s0 + maj) % 4294967296
    [(temp1 + temp2) % 4294967296, a, b, c, (d + temp1) % 4294967296, e, f, g]
  | s => s

/-- Compress one 64-byte block into the hash state. -/
def shaBlock (h : List Nat) (block : List Nat) : List Nat :=
  let ws := shaExtendN 48 (bytesToWords block)
  let final := (shaK.zip ws).foldl (fun st p => shaRound st p.1 p.2) h
  (h.zip final).map (fun p => (p.1 + p.2) % 4294967296)

/-- Process all 64-byte blocks (fuel-bounded iteration). -/
def shaProcess : Nat → List Nat → List Nat → List Nat
  | 0, h, _ => h
  | fuel + 1, h, bytes =>
    if bytes.isEmpty then h
    else shaProcess fuel (shaBlock h (bytes.take 64)) (bytes.drop 64)

/-- `hashlib.sha256(s.encode()).hexdigest()`. -/
def sha256Hex (s : String) : String :=
  let padded := shaPad (utf8Bytes s.toList)
  let hs := shaProcess (padded.length + 1) shaH0 padded
  ⟨(hs.map (fun w => (List.range 8).map
      (fun i => hexDigitChar ((w >>> (28 - 4 * i)) &&& 0xf)))).flatten⟩

end PediAssist

set_option maxRecDepth 10000 in
example : PediAssist.sha256Hex "" =
    "e3b0c44298fc1c149afbf4c8996fb92427ae41e4649b934ca495991b7852b855" := by rfl
set_option maxRecDepth 10000 in
example : PediAssist.sha256Hex "abc" =
    "ba7816bf8f01cfea414140de5dae2223b00361a396177a9cb410ff61f20015ad" := by rfl
set_option maxRecDepth 10000 in
example : PediAssist.sha256Hex
    "abcdbcdecdefdefgefghfghighijhijkijkljklmklmnlmnomnopnopq" =
    "248d6a61d20638b8e5c026930c3e6039a33ce45964ff2167f6ecedd419db06c1" := by rfl

namespace PediAssist

/-! ## `cache.py` — `QueryCache` and `SmartQueryCache`

The Python `dict` is modelled as an insertion-ordered association list with
unique keys: assignment updates in place or appends, deletion filters,
iteration and `min` follow list order (`min` keeps the first minimizer).
Timestamps are naturals in the unit of `default_ttl`.  The statistics
counters are carried but the logger is not modelled. -/

/-- `CacheEntry` (with `__post_init__` setting `last_accessed = timestamp`
inlined at construction). -/
structure CacheEntry where
  response : String
  metadata : List (String × String)
  timestamp : Nat
  access_count : Nat := 1
  last_accessed : Nat
deriving Repr, DecidableEq

/-- The state of a `QueryCache`. -/
structure QueryCache where
  cache : List (String × CacheEntry) := []
  max_size : Nat := 1000
  default_ttl : Nat := 24
  hits : Nat := 0
  misses : Nat := 0
  evictions : Nat := 0
  total_requests : Nat := 0
deriving Repr, DecidableEq

/-- `dict` assignment: update in place if present, else append. -/
def dictSet (d : List (String × CacheEntry)) (k : String) (v : CacheEntry) :
    List (String × CacheEntry) :=
  if (d.lookup k).isSome then
    d.map (fun p => if p.1 = k then (k, v) else p)
  else d ++ [(k, v)]

/-- One comparison of Python `min` (the first minimizer is kept). -/
def lruStep (acc : String × Nat) (q : String × CacheEntry) : String × Nat :=
  if q.2.last_accessed < acc.2 then (q.1, q.2.last_accessed) else acc

/-- `min(self.cache.keys(), key=lambda k: self.cache[k].last_accessed)`:
the first key minimizing `last_accessed`, `none` on an empty dict. -/
def minByLA : List (String × CacheEntry) → Option (String × Nat)
  | [] => none
  | p :: t => some (t.foldl lruStep (p.1, p.2.last_accessed))

/-- `_evict_least_recently_used`. -/
def evictLRU (qc : QueryCache) : QueryCache :=
  match minByLA qc.cache with
  | none => qc
  | some kla =>
    { qc with cache := qc.cache.filter (fun p => p.1 != kla.1),
              evictions := qc.evictions + 1 }

/-- `json.dumps(cache_data, sort_keys=True)` of `_generate_cache_key`
(default separators; keys in sorted order; default
`temperature = 0.1`, `max_tokens = 2000`). -/
def cacheDataJson (prompt provider model : String) : String :=
  "\x7b\"max_tokens\": 2000, \"model\": " ++ dumpsString model ++
    ", \"prompt\": " ++ dumpsString prompt ++
    ", \"provider\": " ++ dumpsString provider ++ ", \"temperature\": 0.1\x7d"

/-- `_generate_cache_key`. -/
def genCacheKey (prompt provider model : String) : String :=
  sha256Hex (cacheDataJson prompt provider model)

/-- `QueryCache.set` after key generation: evict when at or over capacity,
then assign the fresh entry (the returned key is not modelled). -/
def querySet (qc : QueryCache) (cacheKey response : String)
    (metadata : List (String × String)) (now : Nat) : QueryCache :=
  let qc1 := if qc.max_size ≤ qc.cache.length then evictLRU qc else qc
  let entry : CacheEntry :=
    { response := response, metadata := metadata, timestamp := now,
      access_count := 1, last_accessed := now }
  { qc1 with cache := dictSet qc1.cache cacheKey entry }

/-- `QueryCache.set`. -/
def cacheSet (qc : QueryCache) (prompt provider model response : String)
    (metadata : List (String × String)) (now : Nat) : QueryCache :=
  querySet qc (genCacheKey prompt provider model) response metadata now

/-- `QueryCache.get`: TTL-lazy lookup with access bookkeeping. -/
def queryGet (qc : QueryCache) (prompt provider model : String) (now : Nat) :
    Option (String × List (String × String)) × QueryCache :=
  let qc := { qc with total_requests := qc.total_requests + 1 }
  let cacheKey := genCacheKey prompt provider model
  match qc.cache.lookup cacheKey with
  | none => (none, { qc with misses := qc.misses + 1 })
  | some entry =>
    if entry.timestamp + qc.default_ttl < now then
      (none, { qc with cache := qc.cache.filter (fun p => p.1 != cacheKey),
                       misses := qc.misses + 1 })
    else
      let entry1 := { entry with access_count := entry.access_count + 1,
                                 last_accessed := now }
      ((some (entry.response, entry.metadata)),
       { qc with cache := dictSet qc.cache cacheKey entry1, hits := qc.hits + 1 })

/-- `SmartQueryCache`. -/
structure SmartQueryCache extends QueryCache where
  similarity_threshold : ℚ := 4 / 5
deriving Repr, DecidableEq

/-- The stop-word set of `_normalize_prompt`. -/
def stopWords : List String :=
  ["the", "a", "an", "and", "or", "but", "in", "on", "at", "to", "for", "of",
   "with", "by"]

/-- `_normalize_prompt`. -/
def normalizePrompt (prompt : String) : String :=
  let normalized := joinWith " " (splitWs prompt)
  let normalized := lowerStr normalized
  joinWith " " ((splitWs normalized).filter (fun word => !stopWords.contains word))

/-- `_calculate_similarity`: Jaccard similarity of the normalized word sets
(duplicate-free lists stand in for Python sets). -/
def calculateSimilarity (prompt1 prompt2 : String) : ℚ :=
  let set1 := (splitWs (normalizePrompt prompt1)).dedup
  let set2 := (splitWs (normalizePrompt prompt2)).dedup
  let intersection := (set1.filter (fun w => set2.contains w)).length
  let union := (set1 ++ set2.filter (fun w => !set1.contains w)).length
  if 0 < union then (intersection : ℚ) / union else 0

/-- The per-entry `try` of `get_similar`:
`json.loads(hashlib.sha256(cache_key.encode()).hexdigest()[:16])` succeeds
(the loaded value is discarded); on failure the entry is skipped. -/
def sha16Parses (cacheKey : String) : Bool :=
  (jsonLoads ⟨(sha256Hex cacheKey).toList.take 16⟩).isSome

/-- The best-similarity accumulator value (`best_similarity` starts at 0). -/
def bestSim : Option (String × List (String × String) × ℚ) → ℚ
  | none => 0
  | some b => b.2.2

/-- The `similarity` local of one `get_similar` iteration:
`_calculate_similarity(prompt, entry.metadata.get("original_prompt", ""))`. -/
def simOf (prompt : String) (p : String × CacheEntry) : ℚ :=
  calculateSimilarity prompt ((p.2.metadata.lookup "original_prompt").getD "")

/-- One iteration of the `get_similar` loop. -/
def getSimilarStep (prompt : String) (threshold : ℚ)
    (best : Option (String × List (String × String) × ℚ))
    (p : String × CacheEntry) : Option (String × List (String × String) × ℚ) :=
  if sha16Parses p.1 then
    if threshold ≤ simOf prompt p ∧ bestSim best < simOf prompt p then
      some (p.2.response, p.2.metadata, simOf prompt p)
    else best
  else best

/-- `SmartQueryCache.get_similar` (returned value only; the hit/miss
counters are not modelled here).  A `similarity_threshold` argument of
`None` — or a falsy `0` — falls back to the instance default via `or`. -/
def getSimilar (sc : SmartQueryCache) (prompt : String)
    (similarityThreshold : Option ℚ) :
    Option (String × List (String × String) × ℚ) :=
  let threshold := match similarityThreshold with
    | some t => if t ≠ 0 then t else sc.similarity_threshold
    | none => sc.similarity_threshold
  sc.cache.foldl (getSimilarStep prompt threshold) none

end PediAssist

namespace PediAssist

/-- The `min` fold: its result is the initial accumulator or one of the
scanned entries, and its value is a lower bound of both. -/
theorem lruStep_foldl_spec (t : List (String × CacheEntry)) :
    ∀ acc : String × Nat,
      ((t.foldl lruStep acc = acc ∨
        ∃ q ∈ t, t.foldl lruStep acc = (q.1, q.2.last_accessed)) ∧
       (t.foldl lruStep acc).2 ≤ acc.2 ∧
       ∀ q ∈ t, (t.foldl lruStep acc).2 ≤ q.2.last_accessed) := by
  induction t with
  | nil => intro acc; exact ⟨.inl rfl, le_refl _, by simp⟩
  | cons q t ih =>
    intro acc
    simp only [List.foldl_cons]
    obtain ⟨hprov, hle, hall⟩ := ih (lruStep acc q)
    by_cases h : q.2.last_accessed < acc.2
    · have hstep : lruStep acc q = (q.1, q.2.last_accessed) := by
        simp [lruStep, h]
      rw [hstep] at hprov hle hall ⊢
      refine ⟨?_, le_trans hle (le_of_lt h), ?_⟩
      · cases hprov with
        | inl e => exact .inr ⟨q, by simp, e⟩
        | inr e => obtain ⟨q2, hq2, he⟩ := e; exact .inr ⟨q2, by simp [hq2], he⟩
      · intro q2 hq2
        rcases List.mem_cons.mp hq2 with h2 | h2
        · rw [h2]; exact hle
        · exact hall q2 h2
    · have hstep : lruStep acc q = acc := by simp [lruStep, h]
      rw [hstep] at hprov hle hall ⊢
      refine ⟨?_, hle, ?_⟩
      · cases hprov with
        | inl e => exact .inl e
        | inr e => obtain ⟨q2, hq2, he⟩ := e; exact .inr ⟨q2, by simp [hq2], he⟩
      · intro q2 hq2
        rcases List.mem_cons.mp hq2 with h2 | h2
        · rw [h2]; exact le_trans hle (le_of_not_lt h)
        · exact hall q2 h2

/-- `minByLA` returns a present key whose entry's `last_accessed` is minimal. -/
theorem minByLA_spec (d : List (String × CacheEntry)) (k : String) (la : Nat)
    (h : minByLA d = some (k, la)) :
    (∃ e, (k, e) ∈ d ∧ e.last_accessed = la) ∧
    ∀ p ∈ d, la ≤ p.2.last_accessed := by
  cases d with
  | nil => simp [minByLA] at h
  | cons p t =>
    simp only [minByLA, Option.some.injEq] at h
    obtain ⟨hprov, hle, hall⟩ := lruStep_foldl_spec t (p.1, p.2.last_accessed)
    rw [h] at hprov hle hall
    constructor
    · cases hprov with
      | inl e =>
        have hk : k = p.1 := congrArg Prod.fst e
        have hla : la = p.2.last_accessed := congrArg Prod.snd e
        exact ⟨p.2, by rw [hk]; exact List.mem_cons_self _ _, hla.symm⟩
      | inr e =>
        obtain ⟨q, hq, he⟩ := e
        have hk : k = q.1 := congrArg Prod.fst he
        have hla : la = q.2.last_accessed := congrArg Prod.snd he
        exact ⟨q.2, by rw [hk]; exact List.mem_cons_of_mem _ hq, hla.symm⟩
    · intro q hq
      rcases List.mem_cons.mp hq with h2 | h2
      · rw [h2]; exact hle
      · exact hall q h2

/-- `dict` assignment grows the dict by at most one binding. -/
theorem dictSet_length (d : List (String × CacheEntry)) (k : String) (v : CacheEntry) :
    (dictSet d k v).length ≤ d.length + 1 := by
  unfold dictSet
  split
  · simp
  · simp

/-- Deleting a present key shrinks the dict. -/
theorem filter_bne_length_lt (d : List (String × CacheEntry)) (k : String)
    (h : ∃ e, (k, e) ∈ d) :
    (d.filter (fun p => p.1 != k)).length < d.length := by
  induction d with
  | nil => simp at h
  | cons p t ih =>
    by_cases hp : p.1 = k
    · simp only [List.filter_cons, hp, bne_self_eq_false, List.length_cons]
      exact Nat.lt_succ_of_le (List.length_filter_le _ t)
    · obtain ⟨e, he⟩ := h
      rcases List.mem_cons.mp he with h2 | h2
      · exact absurd (congrArg Prod.fst h2.symm) hp
      · have := ih ⟨e, h2⟩
        simp only [List.filter_cons, show (p.1 != k) = true by simpa using hp,
          if_pos, List.length_cons]
        omega

/-- Eviction does not change the capacity. -/
theorem evictLRU_max (qc : QueryCache) : (evictLRU qc).max_size = qc.max_size := by
  unfold evictLRU
  split <;> rfl

/-- `set` does not change the capacity. -/
theorem querySet_max (qc : QueryCache) (cacheKey response : String)
    (metadata : List (String × String)) (now : Nat) :
    (querySet qc cacheKey response metadata now).max_size = qc.max_size := by
  unfold querySet
  split <;> simp [evictLRU_max]

/-- `set` keeps a positive-capacity cache within its capacity. -/
theorem querySet_length (qc : QueryCache) (cacheKey response : String)
    (metadata : List (String × String)) (now : Nat)
    (hmax : 0 < qc.max_size) (hlen : qc.cache.length ≤ qc.max_size) :
    (querySet qc cacheKey response metadata now).cache.length ≤ qc.max_size := by
  unfold querySet
  by_cases hcap : qc.max_size ≤ qc.cache.length
  · simp only [if_pos hcap]
    have hne : qc.cache ≠ [] := by
      intro he
      rw [he] at hcap
      simp at hcap
      omega
    obtain ⟨p, t, hpt⟩ := List.exists_cons_of_ne_nil hne
    have hsome : ∃ kla, minByLA qc.cache = some kla := by
      rw [hpt]; exact ⟨_, rfl⟩
    obtain ⟨⟨k, la⟩, hkla⟩ := hsome
    obtain ⟨⟨e, hmem, -⟩, -⟩ := minByLA_spec qc.cache k la hkla
    have hlt : ((evictLRU qc).cache).length < qc.cache.length := by
      unfold evictLRU
      rw [hkla]
      exact filter_bne_length_lt qc.cache k ⟨e, hmem⟩
    calc (dictSet (evictLRU qc).cache cacheKey _).length
        ≤ (evictLRU qc).cache.length + 1 := dictSet_length _ _ _
      _ ≤ qc.cache.length := hlt
      _ ≤ qc.max_size := hlen
  · simp only [if_neg hcap]
    calc (dictSet qc.cache cacheKey _).length
        ≤ qc.cache.length + 1 := dictSet_length _ _ _
      _ ≤ qc.max_size := by omega

end PediAssist

namespace PediAssist

/-- One `set(prompt, provider, model, response, metadata)` request. -/
structure SetOp where
  prompt : String
  provider : String
  model : String
  response : String
  metadata : List (String × String)
  now : Nat

/-- Apply one `set` request. -/
def applySetOp (qc : QueryCache) (op : SetOp) : QueryCache :=
  cacheSet qc op.prompt op.provider op.model op.response op.metadata op.now

/-- Any sequence of `set` operations keeps a positive-capacity cache within
its capacity (and never changes the capacity). -/
theorem foldl_setOps_length (ops : List SetOp) :
    ∀ qc : QueryCache, 0 < qc.max_size → qc.cache.length ≤ qc.max_size →
      (ops.foldl applySetOp qc).cache.length ≤ qc.max_size ∧
      (ops.foldl applySetOp qc).max_size = qc.max_size := by
  induction ops with
  | nil => intro qc _ hlen; exact ⟨hlen, rfl⟩
  | cons op t ih =>
    intro qc hmax hlen
    simp only [List.foldl_cons]
    have h1 : (applySetOp qc op).cache.length ≤ qc.max_size :=
      querySet_length qc _ op.response op.metadata op.now hmax hlen
    have h2 : (applySetOp qc op).max_size = qc.max_size :=
      querySet_max qc _ op.response op.metadata op.now
    obtain ⟨ha, hb⟩ := ih (applySetOp qc op) (by rw [h2]; exact hmax) (by rw [h2]; exact h1)
    exact ⟨by rw [← h2]; exact ha, by rw [hb, h2]⟩

/-- **C9** (confirmed).  (1) When the cache is at (or over) capacity, `set`
first evicts exactly one present entry whose `last_accessed` is minimal —
never a more recently accessed one — and then inserts the new entry into the
remainder.  (2) Starting at or under a positive capacity, any sequence of
`set` operations leaves at most `max_size` entries. -/
theorem c9_lru_eviction_and_capacity (qc : QueryCache) (cacheKey response : String)
    (metadata : List (String × String)) (now : Nat) (ops : List SetOp)
    (hmax : 0 < qc.max_size) (hlen : qc.cache.length ≤ qc.max_size) :
    (qc.max_size ≤ qc.cache.length →
      ∃ k e, (k, e) ∈ qc.cache ∧
        (∀ p ∈ qc.cache, e.last_accessed ≤ p.2.last_accessed) ∧
        (querySet qc cacheKey response metadata now).cache =
          dictSet (qc.cache.filter (fun p => p.1 != k)) cacheKey
            { response := response, metadata := metadata, timestamp := now,
              access_count := 1, last_accessed := now }) ∧
    (ops.foldl applySetOp qc).cache.length ≤ qc.max_size := by
  refine ⟨?_, (foldl_setOps_length ops qc hmax hlen).1⟩
  intro hcap
  have hne : qc.cache ≠ [] := by
    intro he
    rw [he] at hcap
    simp at hcap
    omega
  obtain ⟨p, t, hpt⟩ := List.exists_cons_of_ne_nil hne
  have hsome : ∃ kla, minByLA qc.cache = some kla := by
    rw [hpt]; exact ⟨_, rfl⟩
  obtain ⟨⟨k, la⟩, hkla⟩ := hsome
  obtain ⟨⟨e, hmem, hla⟩, hmin⟩ := minByLA_spec qc.cache k la hkla
  refine ⟨k, e, hmem, fun p2 hp2 => by rw [hla]; exact hmin p2 hp2, ?_⟩
  unfold querySet
  simp only [if_pos hcap]
  unfold evictLRU
  rw [hkla]

/-- **C9** witness: a capacity-2 cache holding entries last accessed at times
5 and 3; inserting a third entry is governed by the theorem. -/
theorem c9_lru_eviction_and_capacity_witness :
    0 < (2 : Nat) ∧
    (⟨[("a", ⟨"ra", [], 5, 1, 5⟩), ("b", ⟨"rb", [], 3, 1, 3⟩)], 2, 24, 0, 0, 0, 0⟩ :
        QueryCache).cache.length ≤ 2 ∧
    ((2 ≤ ([("a", (⟨"ra", [], 5, 1, 5⟩ : CacheEntry)),
            ("b", ⟨"rb", [], 3, 1, 3⟩)] : List (String × CacheEntry)).length →
      ∃ k e, (k, e) ∈ ([("a", (⟨"ra", [], 5, 1, 5⟩ : CacheEntry)),
            ("b", ⟨"rb", [], 3, 1, 3⟩)] : List (String × CacheEntry)) ∧
        (∀ p ∈ ([("a", (⟨"ra", [], 5, 1, 5⟩ : CacheEntry)),
            ("b", ⟨"rb", [], 3, 1, 3⟩)] : List (String × CacheEntry)),
          e.last_accessed ≤ p.2.last_accessed) ∧
        (querySet ⟨[("a", ⟨"ra", [], 5, 1, 5⟩), ("b", ⟨"rb", [], 3, 1, 3⟩)],
            2, 24, 0, 0, 0, 0⟩ "c" "rc" [] 7).cache =
          dictSet (([("a", (⟨"ra", [], 5, 1, 5⟩ : CacheEntry)),
              ("b", ⟨"rb", [], 3, 1, 3⟩)] :
                List (String × CacheEntry)).filter (fun p => p.1 != k)) "c"
            { response := "rc", metadata := [], timestamp := 7,
              access_count := 1, last_accessed := 7 }) ∧
    (([] : List SetOp).foldl applySetOp
        ⟨[("a", ⟨"ra", [], 5, 1, 5⟩), ("b", ⟨"rb", [], 3, 1, 3⟩)],
          2, 24, 0, 0, 0, 0⟩).cache.length ≤ 2) :=
  ⟨by decide, by decide,
    c9_lru_eviction_and_capacity
      ⟨[("a", ⟨"ra", [], 5, 1, 5⟩), ("b", ⟨"rb", [], 3, 1, 3⟩)], 2, 24, 0, 0, 0, 0⟩
      "c" "rc" [] 7 [] (by decide) (by decide)⟩

end PediAssist

namespace PediAssist

/-- The `get_similar` loop: the best similarity only grows, every unskipped
entry at or above the threshold is dominated by the final best, and the
result is either the initial accumulator or built from an unskipped entry at
or above the threshold. -/
theorem getSimilarStep_foldl_spec (prompt : String) (threshold : ℚ)
    (l : List (String × CacheEntry)) :
    ∀ best : Option (String × List (String × String) × ℚ),
      (bestSim best ≤ bestSim (l.foldl (getSimilarStep prompt threshold) best)) ∧
      (∀ p ∈ l, sha16Parses p.1 = true → threshold ≤ simOf prompt p →
        simOf prompt p ≤ bestSim (l.foldl (getSimilarStep prompt threshold) best)) ∧
      (l.foldl (getSimilarStep prompt threshold) best = best ∨
        ∃ p ∈ l, sha16Parses p.1 = true ∧ threshold ≤ simOf prompt p ∧
          l.foldl (getSimilarStep prompt threshold) best =
            some (p.2.response, p.2.metadata, simOf prompt p)) := by
  induction l with
  | nil => intro best; exact ⟨le_refl _, by simp, .inl rfl⟩
  | cons q t ih =>
    intro best
    simp only [List.foldl_cons]
    obtain ⟨b1, b2, b3⟩ := ih (getSimilarStep prompt threshold best q)
    have hmono : bestSim best ≤ bestSim (getSimilarStep prompt threshold best q) := by
      unfold getSimilarStep
      split
      · split
        · next hcond => exact le_of_lt hcond.2
        · exact le_refl _
      · exact le_refl _
    refine ⟨le_trans hmono b1, ?_, ?_⟩
    · intro p hp hgood hthr
      rcases List.mem_cons.mp hp with h2 | h2
      · subst h2
        by_cases hcond : threshold ≤ simOf prompt p ∧
            bestSim best < simOf prompt p
        · have hstep : getSimilarStep prompt threshold best p =
              some (p.2.response, p.2.metadata, simOf prompt p) := by
            unfold getSimilarStep
            rw [if_pos hgood, if_pos hcond]
          have : simOf prompt p = bestSim (getSimilarStep prompt threshold best p) := by
            rw [hstep]; rfl
          rw [this]
          exact b1
        · have hle : simOf prompt p ≤ bestSim best := by
            rcases not_and_or.mp hcond with hno | hno
            · exact absurd hthr hno
            · exact le_of_not_lt hno
          exact le_trans hle (le_trans hmono b1)
      · exact b2 p h2 hgood hthr
    · rcases b3 with he | ⟨p, hp, hpgood, hpthr, he⟩
      · rw [he]
        by_cases hgood : sha16Parses q.1 = true
        · by_cases hcond : threshold ≤ simOf prompt q ∧ bestSim best < simOf prompt q
          · refine .inr ⟨q, List.mem_cons_self _ _, hgood, hcond.1, ?_⟩
            unfold getSimilarStep
            rw [if_pos hgood, if_pos hcond]
          · refine .inl ?_
            unfold getSimilarStep
            rw [if_pos hgood, if_neg hcond]
        · refine .inl ?_
          unfold getSimilarStep
          rw [if_neg hgood]
      · exact .inr ⟨p, List.mem_cons_of_mem _ hp, hpgood, hpthr, he⟩

/-- **C8** (amended).  `get_similar` first re-parses
`sha256(cache_key)[:16]` as JSON for each entry and silently skips any entry
for which this fails (for hexadecimal keys this almost always fails, see the
counterexample); *among the entries that survive the re-parse*, it returns
the stored response with the highest similarity at or above the threshold,
and misses only when no surviving entry reaches the threshold. -/
theorem c8_get_similar_best_among_unskipped (sc : SmartQueryCache) (prompt : String)
    (hthr : 0 < sc.similarity_threshold) :
    (getSimilar sc prompt none = none →
      ∀ p ∈ sc.cache, sha16Parses p.1 = true →
        simOf prompt p < sc.similarity_threshold) ∧
    (∀ r m s, getSimilar sc prompt none = some (r, m, s) →
      sc.similarity_threshold ≤ s ∧
      (∃ p ∈ sc.cache, sha16Parses p.1 = true ∧ p.2.response = r ∧
        p.2.metadata = m ∧ simOf prompt p = s) ∧
      ∀ p ∈ sc.cache, sha16Parses p.1 = true → simOf prompt p ≤ s) := by
  obtain ⟨b1, b2, b3⟩ :=
    getSimilarStep_foldl_spec prompt sc.similarity_threshold sc.cache none
  have hgs : getSimilar sc prompt none =
      sc.cache.foldl (getSimilarStep prompt sc.similarity_threshold) none := rfl
  constructor
  · intro hnone p hp hgood
    by_contra hcon
    have hthrle : sc.similarity_threshold ≤ simOf prompt p := le_of_not_lt hcon
    have := b2 p hp hgood hthrle
    rw [← hgs, hnone] at this
    simp only [bestSim] at this
    exact absurd (lt_of_lt_of_le hthr (le_trans hthrle this)) (lt_irrefl 0)
  · intro r m s hsome
    rw [← hgs] at b1 b2 b3
    rw [hsome] at b1 b2 b3
    rcases b3 with he | ⟨p, hp, hpgood, hpthr, he⟩
    · exact absurd he (by simp)
    · have h1 : p.2.response = r ∧ p.2.metadata = m ∧ simOf prompt p = s := by
        have h2 := he.symm
        simp only [Option.some.injEq, Prod.mk.injEq] at h2
        exact ⟨h2.1, h2.2.1, h2.2.2⟩
      refine ⟨by rw [← h1.2.2]; exact hpthr, ⟨p, hp, hpgood, h1⟩, ?_⟩
      intro p2 hp2 hp2good
      by_contra hcon
      have hgt : s < simOf prompt p2 := lt_of_not_le hcon
      have hthrle2 : sc.similarity_threshold ≤ simOf prompt p2 :=
        le_trans (by rw [← h1.2.2]; exact hpthr) (le_of_lt hgt)
      have := b2 p2 hp2 hp2good hthrle2
      simp only [bestSim] at this
      exact absurd (lt_of_le_of_lt this hgt) (lt_irrefl _)

end PediAssist

namespace PediAssist

/-- The genuine cache fingerprint of the query `"fever in child"` on
`openai`/`gpt-4` with default kwargs. -/
def c8Key : String :=
  "adbc8365a72e93c562a9499647fbe7c135ba08db12fee44864ab2e10a47022c5"

/-- A cache entry that stores the original prompt in its metadata. -/
def c8Entry : CacheEntry :=
  ⟨"resp", [("original_prompt", "fever in child")], 0, 1, 0⟩

/-- A smart cache holding that entry under its genuine fingerprint. -/
def c8Cache : SmartQueryCache :=
  ⟨⟨[(c8Key, c8Entry)], 1000, 24, 0, 0, 0, 0⟩, 4 / 5⟩

set_option maxRecDepth 10000 in
/-- **C8** counterexample to the claim as stated: a cache holding the genuine
fingerprint of the query `"fever in child"` (with the original prompt stored
in its metadata) has an entry of similarity `1 ≥ 0.8`, yet `get_similar`
misses: `json.loads` of `sha256(cache_key)[:16] = "dded65e6e7e3b86a"` raises,
so the entry is skipped. -/
theorem c8_identical_prompt_not_found :
    genCacheKey "fever in child" "openai" "gpt-4" = c8Key ∧
    calculateSimilarity "fever in child" "fever in child" = 1 ∧
    getSimilar c8Cache "fever in child" none = none := by
  refine ⟨by rfl, ?_, by rfl⟩
  rw [show calculateSimilarity "fever in child" "fever in child"
      = ((2 : Nat) : ℚ) / ((2 : Nat) : ℚ) from rfl]
  norm_num

/-- A one-entry smart cache with similarity threshold 1. -/
def c8wCache : SmartQueryCache :=
  ⟨⟨[("k", ⟨"r0", [("original_prompt", "flu")], 0, 1, 0⟩)], 1000, 24, 0, 0, 0, 0⟩, 1⟩

/-- **C8** witness: the amended selection property at a concrete cache and
threshold. -/
theorem c8_get_similar_best_among_unskipped_witness :
    (0 : ℚ) < c8wCache.similarity_threshold ∧
    ((getSimilar c8wCache "flu" none = none →
      ∀ p ∈ c8wCache.cache, sha16Parses p.1 = true →
        simOf "flu" p < c8wCache.similarity_threshold) ∧
    (∀ r m s, getSimilar c8wCache "flu" none = some (r, m, s) →
      c8wCache.similarity_threshold ≤ s ∧
      (∃ p ∈ c8wCache.cache, sha16Parses p.1 = true ∧ p.2.response = r ∧
        p.2.metadata = m ∧ simOf "flu" p = s) ∧
      ∀ p ∈ c8wCache.cache, sha16Parses p.1 = true → simOf "flu" p ≤ s)) :=
  ⟨by decide, c8_get_similar_best_among_unskipped c8wCache "flu" (by decide)⟩

end PediAssist

namespace PediAssist

set_option maxRecDepth 100000 in
/-- **C3** witness: a concrete successful run returns `cached = false` and
appends exactly one usage record to the ledger. -/
theorem c3_no_cache_ledger_grows_witness :
    generateTreatmentPlan ⟨fun _ => .ok "text" 3, 0, 0, 0⟩ ⟨⟨[], 100, 10⟩, 0⟩
        "ear infection" 5 "ollama" "llama2"
      = (.ok { content := normalizeContent (buildTreatmentPrompt "ear infection" 5) "text",
               tokens_used := 3, cost_usd := calculateCost "ollama" "llama2" 3,
               provider := "ollama", model := "llama2",
               response_time_ms := 0, safety_score := 9 / 10, cached := false },
         { tracker := trackRequest ⟨[], 100, 10⟩ 0 "ollama" "llama2" 3
             (calculateCost "ollama" "llama2" 3) "treatment_plan",
           calls := 1 }) ∧
    ({ content := normalizeContent (buildTreatmentPrompt "ear infection" 5) "text",
       tokens_used := 3, cost_usd := calculateCost "ollama" "llama2" 3,
       provider := "ollama", model := "llama2",
       response_time_ms := 0, safety_score := 9 / 10, cached := false } :
         LLMResponse).cached = false ∧
    (trackRequest (⟨[], 100, 10⟩ : CostTracker) 0 "ollama" "llama2" 3
        (calculateCost "ollama" "llama2" 3) "treatment_plan").records =
      ([] : List UsageRecord) ++
        [{ timestamp := 0, provider := "ollama", model := "llama2",
           tokens_used := 3, cost_usd := calculateCost "ollama" "llama2" 3,
           request_type := "treatment_plan", success := true,
           response_time_ms := none }] := by
  have h := generateTreatmentPlan_ok_eval ⟨fun _ => .ok "text" 3, 0, 0, 0⟩
    ⟨⟨[], 100, 10⟩, 0⟩ "ear infection" 5 "ollama" "llama2" "text" 3
    (by decide) earPrompt_safe (by decide) rfl
  have hc := c3_no_cache_ledger_grows ⟨fun _ => .ok "text" 3, 0, 0, 0⟩
    ⟨⟨[], 100, 10⟩, 0⟩ "ear infection" 5 "ollama" "llama2" _ _ h
  exact ⟨h, hc.1, hc.2⟩

end PediAssist
